import Mathlib

/-!
# gonorm: a shallow embedding of `gonorm.go`

`gonorm.go` runs a SQL query and fills values of a caller-supplied struct type
from the rows, matching the query's column names against the struct's field
names by reflection.  This file embeds the four operations `GetRows`, `GetRow`,
`GetRowsJson`, `GetRowJson` as pure functions over an explicit model of what
the Go standard library hands to them:

* the struct type seen through `reflect` (`StructField`, `StructType`); the
  template value `val` is a struct, any other value makes `NumField` panic;
* the cursor `*sql.Rows` as explicit state (`Rows`), with `Scan` and `Close`;
  a successful `rows.Next()` moves the head of `pending` into `lastcols`;
* the library tables that are not part of the repository (Unicode case
  folding, `database/sql` value conversion, the JSON encoding of a slice of
  structs) as fields of `StdLib`, so that every general theorem holds for
  whatever these tables are;
* Go run-time panics as the `panic` constructor of `Outcome`.
-/

namespace Gonorm

/-! ## Data model -/

/-- Go `error` values, represented by their message. -/
abbrev Error := String

/-- The Go types a struct field may have in this model. -/
inductive Kind where
  | int
  | string
  | bool
  deriving DecidableEq

/-- Values: what a driver delivers for a column and what a struct field holds. -/
inductive Value where
  | null
  | int (n : Int)
  | str (s : String)
  | bool (b : Bool)
  deriving DecidableEq

/-- The zero value of a Go type (`reflect.New` yields a pointer to it). -/
def Kind.zero : Kind → Value
  | .int => .int 0
  | .string => .str ""
  | .bool => .bool false

/-- A struct tag, already split into its `key:"value"` pairs. -/
abbrev StructTag := List (String × String)

/-- `reflect.StructTag.Get`: the value of the first pair with the key, or the
empty string when the key is absent. -/
def StructTag.Get (tag : StructTag) (key : String) : String :=
  match tag.lookup key with
  | some v => v
  | none => ""

/-- `reflect.StructField`: as in Go, `PkgPath` is empty exactly for exported
(upper-case) fields. -/
structure StructField where
  Name : String
  PkgPath : String
  Typ : Kind
  Tag : StructTag
  deriving DecidableEq

/-- `reflect.StructField.IsExported`. -/
def StructField.IsExported (f : StructField) : Bool :=
  f.PkgPath == ""

/-- A struct type: its fields in declaration order (`NumField` is the length,
`Field i` the `i`-th element). -/
abbrev StructType := List StructField

/-- A struct value: the values of its fields, by position. -/
abbrev Record := List Value

/-- `reflect.New(valr)` followed by `reflect.Indirect`: the zero struct. -/
def zeroRecord (valr : StructType) : Record :=
  valr.map (fun f => f.Typ.zero)

/-- The Go values (`interface{}`) the operations return. `reflectValue` is a
`reflect.Value` boxed in an interface, which is what `GetRow` returns. -/
inductive Iface where
  | nil
  | slice (elem : StructType) (items : List Record)
  | reflectValue (elem : StructType) (v : Record)
  deriving DecidableEq

/-- A call either returns or panics. -/
inductive Outcome (α : Type) where
  | ret (a : α)
  | panic (msg : String)
  deriving DecidableEq

/-- Library tables that are not part of the repository. -/
structure StdLib where
  /-- `unicode.ToLower` on one rune. -/
  unicodeToLower : Char → Char
  /-- `database/sql` `convertAssign`: the value stored in a destination of the
  given type for a driver value, or the conversion error. -/
  convertAssign : Kind → Value → Except Error Value
  /-- `encoding/json` on a slice of structs `[]T`. -/
  marshalSlice : StructType → List Record → Except Error String

/-! ## Library functions -/

/-- `strings.ToLower`: every rune mapped through `unicode.ToLower`. -/
def strings.ToLower (L : StdLib) (s : String) : String :=
  String.mk (s.data.map L.unicodeToLower)

/-- Go's `strings.Trim`, on lists of runes. -/
def strings.trimRunes (cutset : List Char) (s : List Char) : List Char :=
  ((s.dropWhile (fun c => decide (c ∈ cutset))).reverse.dropWhile
    (fun c => decide (c ∈ cutset))).reverse

/-- `strings.Trim(s, cutset)`: `s` without the leading and trailing runes that
occur in `cutset`. -/
def strings.Trim (s cutset : String) : String :=
  String.mk (strings.trimRunes cutset.data s.data)

/-- Go's builtin `len` on a string: its length in bytes. -/
def len (s : String) : Nat := s.utf8ByteSize

/-- `fmt.Sprintf("No match for column %d: %s", i, val)`. -/
def noMatchMessage (i : Nat) (val : String) : String :=
  "No match for column " ++ toString i ++ ": " ++ val

/-! ## The cursor `*sql.Rows` -/

deriving instance DecidableEq for Except

/-- The state of a cursor returned by `DB.Query`. -/
structure Rows where
  /-- What `rows.Columns()` returns. -/
  columns : Except Error (List String)
  /-- The rows `Next` has not delivered yet. -/
  pending : List (List Value)
  /-- The row delivered by the last `Next`, if any. -/
  lastcols : Option (List Value)
  closed : Bool
  deriving DecidableEq

/-- `rows.Close()`. -/
def Rows.Close (rs : Rows) : Rows :=
  { rs with closed := true, lastcols := none }

/-- The loop of `Rows.Scan`: convert the column values one by one into the
destinations (field positions of `newval`), stopping at the first conversion
error. -/
def scanInto (L : StdLib) (valr : StructType) :
    List Nat → List Value → Record → Record × Option Error
  | ind :: adds, sv :: srcs, newval =>
    match valr[ind]? with
    | none => (newval, some "sql: Scan error: destination not a pointer")
    | some fld =>
      match L.convertAssign fld.Typ sv with
      | .error e => (newval, some e)
      | .ok v => scanInto L valr adds srcs (newval.set ind v)
  | _, _, newval => (newval, none)

/-- `rows.Scan(adds...)`: the destinations are pointers to fields of `newval`,
represented by the field positions. Fails without writing when there is no
current row or when the number of destinations is not the number of columns. -/
def Rows.Scan (L : StdLib) (rs : Rows) (valr : StructType) (adds : List Nat)
    (newval : Record) : Record × Option Error :=
  match rs.lastcols with
  | none => (newval, some "sql: Scan called without calling Next")
  | some lastcols =>
    if adds.length ≠ lastcols.length then
      (newval, some ("sql: expected " ++ toString lastcols.length ++
        " destination arguments in Scan, not " ++ toString adds.length))
    else scanInto L valr adds lastcols newval

/-- The connection `*sql.DB`: what `Query` returns for a query text. -/
structure SqlDB where
  Query : String → Except Error Rows

/-- `Norm` holds the connection and the strings it was opened with. -/
structure Norm where
  DB : SqlDB
  Driver : String
  Connect : String

/-! ## The mapping engine -/

/-- A Go `map[string]int`. -/
abbrev StrMap := String → Option Nat

/-- Assignment `m[k] = v`. -/
def StrMap.set (m : StrMap) (k : String) (v : Nat) : StrMap :=
  fun k' => if k' = k then some v else m k'

/-- The name under which a field is entered in the catalog (the value of `nm`
at the end of the loop body, lines 50-54 and 110-114). -/
def fieldName (L : StdLib) (fld : StructField) : String :=
  let nm := strings.ToLower L fld.Name
  let fldnm := fld.Tag.Get "fldnm"
  if len (strings.Trim fldnm " \t") > 0 then strings.Trim fldnm " \t" else nm

/-- The loop `for i := 0; i < valr.NumField(); i++` from position `i` on, over
the fields not yet visited. -/
def strfldsFrom (L : StdLib) : List StructField → Nat → StrMap → StrMap
  | [], _, m => m
  | fld :: rest, i, m => strfldsFrom L rest (i + 1) (m.set (fieldName L fld) i)

/-- The name-to-position catalog `strflds` after the loop. -/
def strflds (L : StdLib) (valr : StructType) : StrMap :=
  strfldsFrom L valr 0 (fun _ => none)

/-- The loop `for i, val := range cols` from position `i` on: the entries of
`colmap` for the remaining columns, or the error of the first column that is
not in the catalog. -/
def colmapFrom (m : StrMap) : List String → Nat → Except Error (List Nat)
  | [], _ => .ok []
  | val :: rest, i =>
    match m val with
    | some ind =>
      match colmapFrom m rest (i + 1) with
      | .ok tl => .ok (ind :: tl)
      | .error e => .error e
    | none => .error (noMatchMessage i val)

/-- The column-to-field table `colmap`. -/
def colmap (m : StrMap) (cols : List String) : Except Error (List Nat) :=
  colmapFrom m cols 0

/-- The loop `for i, ind := range colmap` computing `adds`:
`newval.Field(ind)` panics when `ind` is out of range and `.Interface()` panics
on a field that is not exported. -/
def addsOf (valr : StructType) : List Nat → Outcome (List Nat)
  | [] => .ret []
  | ind :: rest =>
    match valr[ind]? with
    | none => .panic "reflect: Field index out of range"
    | some fld =>
      if fld.IsExported then
        match addsOf valr rest with
        | .ret tl => .ret (ind :: tl)
        | .panic msg => .panic msg
      else
        .panic "reflect.Value.Interface: cannot return value obtained from unexported field or method"

/-- The body executed for the current row (lines 85-93 and 145-153): a fresh
zero struct, the addresses of the mapped fields, and `rows.Scan` whose error
is dropped. -/
def materialize (L : StdLib) (valr : StructType) (colmap : List Nat) (rs : Rows) :
    Outcome Record :=
  let newval := zeroRecord valr
  match addsOf valr colmap with
  | .panic msg => .panic msg
  | .ret adds => .ret (rs.Scan L valr adds newval).1

/-- The loop `for rows.Next()` of `GetRows`, over the rows still pending:
returns the slice (or the panic) and the cursor as the loop leaves it. -/
def rowsLoop (L : StdLib) (valr : StructType) (colmap : List Nat) :
    List (List Value) → Rows → List Record → Outcome (List Record) × Rows
  | [], rs, slice => (.ret slice, { rs with pending := [], lastcols := none })
  | row :: rest, rs, slice =>
    let rs1 : Rows := { rs with pending := rest, lastcols := some row }
    match materialize L valr colmap rs1 with
    | .panic msg => (.panic msg, rs1)
    | .ret newval => rowsLoop L valr colmap rest rs1 (slice ++ [newval])

/-- What a call leaves behind: its result `(value, error)` or panic, and the
cursor the query produced (if any) in its final state. -/
structure Run (α : Type) where
  result : Outcome (α × Option Error)
  cursor : Option Rows

/-- `Norm.GetRows`. The deferred `rows.Close()` runs on every path after the
query succeeded. -/
def GetRows (L : StdLib) (ent : Norm) (sql : String) (val : StructType) : Run Iface :=
  let strflds := strflds L val
  match ent.DB.Query sql with
  | .error err => ⟨.ret (.nil, some err), none⟩
  | .ok rows =>
    match rows.columns with
    | .error err => ⟨.ret (.nil, some err), some rows.Close⟩
    | .ok cols =>
      match colmap strflds cols with
      | .error err => ⟨.ret (.nil, some err), some rows.Close⟩
      | .ok colmap =>
        match rowsLoop L val colmap rows.pending rows [] with
        | (.panic msg, rows') => ⟨.panic msg, some rows'.Close⟩
        | (.ret slice, rows') => ⟨.ret (.slice val slice, none), some rows'.Close⟩

/-- `Norm.GetRow`. It returns `newval` itself, a `reflect.Value`. -/
def GetRow (L : StdLib) (ent : Norm) (sql : String) (val : StructType) : Run Iface :=
  let strflds := strflds L val
  match ent.DB.Query sql with
  | .error err => ⟨.ret (.nil, some err), none⟩
  | .ok rows =>
    match rows.columns with
    | .error err => ⟨.ret (.nil, some err), some rows.Close⟩
    | .ok cols =>
      match colmap strflds cols with
      | .error err => ⟨.ret (.nil, some err), some rows.Close⟩
      | .ok colmap =>
        match rows.pending with
        | row :: rest =>
          let rows1 : Rows := { rows with pending := rest, lastcols := some row }
          match materialize L val colmap rows1 with
          | .panic msg => ⟨.panic msg, some rows1.Close⟩
          | .ret newval => ⟨.ret (.reflectValue val newval, none), some rows1.Close⟩
        | [] => ⟨.ret (.nil, none), some { rows with lastcols := none }.Close⟩

/-- `json.Marshal` on the values the fetch operations return, as
`(string(buf), err)`: `nil` encodes as `null`; a `reflect.Value` is a struct
without exported fields and encodes as `{}`; on an error `buf` is nil. -/
def jsonMarshal (L : StdLib) : Iface → String × Option Error
  | .nil => ("null", none)
  | .reflectValue _ _ => ("\x7b\x7d", none)
  | .slice elem items =>
    match L.marshalSlice elem items with
    | .ok s => (s, none)
    | .error e => ("", some e)

/-- `Norm.GetRowsJson`. -/
def GetRowsJson (L : StdLib) (ent : Norm) (sql : String) (val : StructType) : Run String :=
  match GetRows L ent sql val with
  | ⟨.panic msg, c⟩ => ⟨.panic msg, c⟩
  | ⟨.ret (vals, err), c⟩ =>
    match err with
    | some e => ⟨.ret ("[]", some e), c⟩
    | none => ⟨.ret ((jsonMarshal L vals).1, none), c⟩

/-- `Norm.GetRowJson`. -/
def GetRowJson (L : StdLib) (ent : Norm) (sql : String) (val : StructType) : Run String :=
  match GetRow L ent sql val with
  | ⟨.panic msg, c⟩ => ⟨.panic msg, c⟩
  | ⟨.ret (vals, err), c⟩ =>
    match err with
    | some e => ⟨.ret ("", some e), c⟩
    | none => ⟨.ret ((jsonMarshal L vals).1, none), c⟩

/-! ## A concrete instance, used to evaluate the operations on examples -/

/-- An instance of the library tables for the examples: `Char.toLower` is
`unicode.ToLower` on ASCII, and a driver value of the destination's own type
is stored unchanged (`int64` into `int`, `string` into `string`, `bool` into
`bool`); a NULL has no conversion to these types. The other conversions of
`database/sql` are not tabulated here and are reported as errors; the examples
do not use them. The encoder is left trivial: the examples do not reach it. -/
def exampleLib : StdLib where
  unicodeToLower := Char.toLower
  convertAssign := fun k v =>
    match k, v with
    | .int, .int n => .ok (.int n)
    | .string, .str s => .ok (.str s)
    | .bool, .bool b => .ok (.bool b)
    | _, _ => .error "sql: Scan error: unsupported Scan"
  marshalSlice := fun _ _ => .ok "[]"

/-- A fresh cursor over the given columns and rows. -/
def cursorOf (cols : List String) (rows : List (List Value)) : Rows :=
  ⟨.ok cols, rows, none, false⟩

/-- A connection on which every query yields the given cursor. -/
def normOf (rs : Rows) : Norm :=
  ⟨⟨fun _ => .ok rs⟩, "postgres", ""⟩

/-- The Go type `struct { Id int; Name string }`. -/
def personType : StructType :=
  [⟨"Id", "", .int, []⟩, ⟨"Name", "", .string, []⟩]

/-- The Go type `struct { Id int }`. -/
def idType : StructType :=
  [⟨"Id", "", .int, []⟩]

/-- The spec's scenario: columns `id`, `name` and the rows `(1,"a")`, `(2,"b")`. -/
def personCursor : Rows :=
  cursorOf ["id", "name"] [[.int 1, .str "a"], [.int 2, .str "b"]]

/-- A result in which two columns carry the same name, as for
`select a as id, b as id from t`. -/
def twiceIdCursor : Rows :=
  cursorOf ["id", "id"] [[.int 1, .int 2]]

/-- The spec's scenario of a column that no field matches. -/
def nicknameCursor : Rows :=
  cursorOf ["id", "nickname"] [[.int 1, .str "a"]]

/-- A result with the columns `id`, `name` and no row. -/
def emptyCursor : Rows :=
  cursorOf ["id", "name"] []

/-- The Go type ``struct { Email string `fldnm:"mail"` }``. -/
def mailType : StructType :=
  [⟨"Email", "", .string, [("fldnm", "mail")]⟩]

/-- The Go type ``struct { Email string `fldnm:"mail"`; Mail string }``: the
second field is entered in the catalog under the name the first one overrides
to. -/
def mailboxType : StructType :=
  [⟨"Email", "", .string, [("fldnm", "mail")]⟩, ⟨"Mail", "", .string, []⟩]

/-- The Go type ``struct { Email string `fldnm:" mail "` }``: the tag value has
a space on either side. -/
def paddedType : StructType :=
  [⟨"Email", "", .string, [("fldnm", " mail ")]⟩]

/-- The Go type ``struct { Email string `fldnm:"Mail"` }``. -/
def capitalTagType : StructType :=
  [⟨"Email", "", .string, [("fldnm", "Mail")]⟩]

/-- The Go type `struct { Id int; ID int }`: both declared names lower-case
to `id`. -/
def idPairType : StructType :=
  [⟨"Id", "", .int, []⟩, ⟨"ID", "", .int, []⟩]

/-- The Go type ``struct { Email string `fldnm:"e_mail"` }``. -/
def emailType : StructType :=
  [⟨"Email", "", .string, [("fldnm", "e_mail")]⟩]

/-- The spec's scenario for the first-row fetch: column `e_mail`, one row. -/
def emailCursor : Rows :=
  cursorOf ["e_mail"] [[.str "x@y.com"]]

/-- The Go type `struct { Id int; name string }` of a package `main`: the
second field is not exported. -/
def memberType : StructType :=
  [⟨"Id", "", .int, []⟩, ⟨"name", "main", .string, []⟩]

/-- A result with the columns `id`, `name` and one row. -/
def memberCursor : Rows :=
  cursorOf ["id", "name"] [[.int 1, .str "a"]]

/-- A result whose first row has a NULL in the column `id`. -/
def nullIdCursor : Rows :=
  cursorOf ["id", "name"] [[.null, .str "a"], [.int 2, .str "b"]]

/-- A result with the single column `id` and one row. -/
def idOnlyCursor : Rows :=
  cursorOf ["id"] [[.int 7]]

/-- A result with the single column `name` and two rows. -/
def nameOnlyCursor : Rows :=
  cursorOf ["name"] [[.str "a"], [.str "b"]]

/-- A connection on which every query fails with the given error. -/
def failingNorm (e : Error) : Norm :=
  ⟨⟨fun _ => .error e⟩, "postgres", ""⟩

/-- The tables of `exampleLib` with an encoder that reports an error, as
`encoding/json` does for a value it does not support. -/
def brokenEncoderLib : StdLib :=
  { exampleLib with marshalSlice := fun _ _ => .error "json: unsupported value" }

/-- The structs a caller finds in a returned value: the elements of a slice,
the struct behind a `reflect.Value`, none in the nil value. -/
def Iface.records : Iface → List Record
  | .nil => []
  | .slice _ items => items
  | .reflectValue _ v => [v]

/-- The Go type `struct { Name string; name string }` of a package `main`:
both fields have the lookup name `name`, and the last one is not exported. -/
def namePairType : StructType :=
  [⟨"Name", "", .string, []⟩, ⟨"name", "main", .string, []⟩]

/-- A result with the single column `name` and one row. -/
def namePairCursor : Rows :=
  cursorOf ["name"] [[.str "a"]]

/-! ## The catalog -/

theorem strfldsFrom_frame (L : StdLib) (k : String) :
    ∀ (flds : List StructField) (i : Nat) (m : StrMap),
      (∀ f ∈ flds, fieldName L f ≠ k) → strfldsFrom L flds i m k = m k := by
  intro flds
  induction flds with
  | nil => intro i m _; rfl
  | cons f0 rest ih =>
    intro i m h
    have h0 : fieldName L f0 ≠ k := h f0 (List.mem_cons_self _ _)
    have hr : ∀ f ∈ rest, fieldName L f ≠ k := fun f hf => h f (List.mem_cons_of_mem _ hf)
    show strfldsFrom L rest (i + 1) (m.set (fieldName L f0) i) k = m k
    rw [ih (i + 1) _ hr]
    simp [StrMap.set, Ne.symm h0]

theorem strfldsFrom_last (L : StdLib) (k : String) :
    ∀ (flds : List StructField) (i : Nat) (m : StrMap) (j : Nat) (f : StructField),
      flds[j]? = some f → fieldName L f = k →
      (∀ q g, j < q → flds[q]? = some g → fieldName L g ≠ k) →
      strfldsFrom L flds i m k = some (i + j) := by
  intro flds
  induction flds with
  | nil => intro i m j f hj; simp at hj
  | cons f0 rest ih =>
    intro i m j f hj hf hlast
    cases j with
    | zero =>
      simp at hj
      subst hj
      have hr : ∀ g ∈ rest, fieldName L g ≠ k := by
        intro g hg
        obtain ⟨q, hq, hqg⟩ := List.getElem_of_mem hg
        exact hlast (q + 1) g (Nat.succ_pos q) (by simp [List.getElem?_eq_getElem hq, hqg])
      show strfldsFrom L rest (i + 1) (m.set (fieldName L f0) i) k = some (i + 0)
      rw [strfldsFrom_frame L k rest (i + 1) _ hr]
      simp [StrMap.set, hf]
    | succ j =>
      simp at hj
      have := ih (i + 1) (m.set (fieldName L f0) i) j f hj hf
        (fun q g hq hg => hlast (q + 1) g (by omega) (by simpa using hg))
      show strfldsFrom L rest (i + 1) (m.set (fieldName L f0) i) k = some (i + (j + 1))
      rw [this]
      congr 1
      omega

theorem strfldsFrom_some (L : StdLib) (k : String) (p : Nat) :
    ∀ (flds : List StructField) (i : Nat) (m : StrMap),
      strfldsFrom L flds i m k = some p →
      (m k = some p ∧ ∀ f ∈ flds, fieldName L f ≠ k) ∨
      (∃ j f, flds[j]? = some f ∧ p = i + j ∧ fieldName L f = k ∧
        ∀ q g, j < q → flds[q]? = some g → fieldName L g ≠ k) := by
  intro flds
  induction flds with
  | nil => intro i m h; exact Or.inl ⟨h, by simp⟩
  | cons f0 rest ih =>
    intro i m h
    rcases ih (i + 1) (m.set (fieldName L f0) i) h with ⟨hm, hr⟩ | ⟨j, f, hj, hp, hf, hlast⟩
    · by_cases hk : k = fieldName L f0
      · right
        refine ⟨0, f0, by simp, ?_, hk.symm, ?_⟩
        · simp [StrMap.set, hk] at hm
          omega
        · intro q g hq hg
          cases q with
          | zero => omega
          | succ q =>
            simp at hg
            exact hr g (List.getElem?_mem hg)
      · left
        refine ⟨by simpa [StrMap.set, hk] using hm, ?_⟩
        intro f hf
        rcases List.mem_cons.mp hf with rfl | hf
        · exact fun h => hk h.symm
        · exact hr f hf
    · right
      refine ⟨j + 1, f, by simpa using hj, by omega, hf, ?_⟩
      intro q g hq hg
      cases q with
      | zero => omega
      | succ q =>
        simp at hg
        exact hlast q g (by omega) hg

/-- The catalog maps a name to a position exactly when that position holds the
last field entered under the name. -/
theorem strflds_eq_some_iff (L : StdLib) (val : StructType) (k : String) (p : Nat) :
    strflds L val k = some p ↔
      ∃ f, val[p]? = some f ∧ fieldName L f = k ∧
        ∀ q g, p < q → val[q]? = some g → fieldName L g ≠ k := by
  constructor
  · intro h
    rcases strfldsFrom_some L k p val 0 _ h with ⟨hm, _⟩ | ⟨j, f, hj, hp, hf, hlast⟩
    · simp at hm
    · have : p = j := by omega
      subst this
      exact ⟨f, hj, hf, hlast⟩
  · rintro ⟨f, hj, hf, hlast⟩
    have := strfldsFrom_last L k val 0 (fun _ => none) p f hj hf hlast
    simpa [strflds] using this

/-- A name is absent from the catalog exactly when no field is entered under it. -/
theorem strflds_eq_none_iff (L : StdLib) (val : StructType) (k : String) :
    strflds L val k = none ↔ ∀ f ∈ val, fieldName L f ≠ k := by
  constructor
  · intro h f hf hk
    -- some field has the name, so a last one exists and the catalog holds it
    have key : ∀ (flds : List StructField) (i : Nat) (m : StrMap),
        (∃ g ∈ flds, fieldName L g = k) → strfldsFrom L flds i m k ≠ none := by
      intro flds
      induction flds with
      | nil => intro i m h; simp at h
      | cons f0 rest ih =>
        intro i m hex
        by_cases hr : ∃ g ∈ rest, fieldName L g = k
        · exact ih (i + 1) _ hr
        · have hr' : ∀ g ∈ rest, fieldName L g ≠ k := by
            intro g hg hgk; exact hr ⟨g, hg, hgk⟩
          obtain ⟨g, hg, hgk⟩ := hex
          rcases List.mem_cons.mp hg with rfl | hg
          · show strfldsFrom L rest (i + 1) (m.set (fieldName L g) i) k ≠ none
            rw [strfldsFrom_frame L k rest (i + 1) _ hr']
            simp [StrMap.set, hgk]
          · exact absurd hgk (hr' g hg)
    exact key val 0 _ ⟨f, hf, hk⟩ h
  · intro h
    have := strfldsFrom_frame L k val 0 (fun _ => none) h
    simpa [strflds] using this

/-- Every position in the catalog is a field position of the struct. -/
theorem strflds_lt (L : StdLib) (val : StructType) (k : String) (p : Nat)
    (h : strflds L val k = some p) : p < val.length := by
  obtain ⟨f, hf, _⟩ := (strflds_eq_some_iff L val k p).mp h
  by_contra hlt
  rw [List.getElem?_eq_none (by omega)] at hf
  exact absurd hf (by simp)

/-! ## Column resolution -/

theorem colmapFrom_ok (m : StrMap) :
    ∀ (cols : List String) (i : Nat), (∀ c ∈ cols, m c ≠ none) →
      ∃ cm, colmapFrom m cols i = .ok cm ∧ cols.map m = cm.map some := by
  intro cols
  induction cols with
  | nil => intro i _; exact ⟨[], rfl, rfl⟩
  | cons c rest ih =>
    intro i h
    obtain ⟨cm, hcm, hmap⟩ := ih (i + 1) (fun x hx => h x (List.mem_cons_of_mem _ hx))
    have hc := h c (List.mem_cons_self _ _)
    cases hmc : m c with
    | none => exact absurd hmc hc
    | some ind =>
      refine ⟨ind :: cm, ?_, ?_⟩
      · simp [colmapFrom, hmc, hcm]
      · simp [hmc, hmap]

theorem colmapFrom_ok_inv (m : StrMap) :
    ∀ (cols : List String) (i : Nat) (cm : List Nat),
      colmapFrom m cols i = .ok cm → cols.map m = cm.map some := by
  intro cols
  induction cols with
  | nil =>
    intro i cm h
    simp [colmapFrom] at h
    subst h
    rfl
  | cons c rest ih =>
    intro i cm h
    unfold colmapFrom at h
    cases hmc : m c with
    | none => simp [hmc] at h
    | some ind =>
      simp only [hmc] at h
      cases hrest : colmapFrom m rest (i + 1) with
      | error e => simp [hrest] at h
      | ok tl =>
        simp only [hrest] at h
        have : cm = ind :: tl := by injection h with h; exact h.symm
        subst this
        simp [hmc, ih (i + 1) tl hrest]

theorem colmapFrom_unmatched (m : StrMap) (name : String) (hname : m name = none) :
    ∀ (cols : List String) (start i : Nat), cols[i]? = some name →
      (∀ j c, j < i → cols[j]? = some c → m c ≠ none) →
      colmapFrom m cols start = .error (noMatchMessage (start + i) name) := by
  intro cols
  induction cols with
  | nil => intro start i h; simp at h
  | cons c rest ih =>
    intro start i hi hpre
    cases i with
    | zero =>
      simp at hi
      subst hi
      simp [colmapFrom, hname]
    | succ i =>
      simp at hi
      have hc : m c ≠ none := hpre 0 c (Nat.succ_pos i) (by simp)
      have hrest := ih (start + 1) i hi
        (fun j x hj hx => hpre (j + 1) x (by omega) (by simpa using hx))
      cases hmc : m c with
      | none => exact absurd hmc hc
      | some ind =>
        have e : start + 1 + i = start + (i + 1) := by omega
        simp [colmapFrom, hmc, hrest, e]

theorem colmapFrom_error_of_mem (m : StrMap) (name : String) (hname : m name = none) :
    ∀ (cols : List String) (start : Nat), name ∈ cols →
      ∃ e, colmapFrom m cols start = .error e := by
  intro cols
  induction cols with
  | nil => intro start h; simp at h
  | cons c rest ih =>
    intro start h
    cases hmc : m c with
    | none => exact ⟨noMatchMessage start c, by simp [colmapFrom, hmc]⟩
    | some ind =>
      have hne : name ≠ c := by
        intro hnc
        rw [hnc, hmc] at hname
        exact absurd hname (by simp)
      have hr : name ∈ rest := by
        rcases List.mem_cons.mp h with h | h
        · exact absurd h hne
        · exact h
      obtain ⟨e, he⟩ := ih (start + 1) hr
      exact ⟨e, by simp [colmapFrom, hmc, he]⟩

/-- Entry `i` of a resolution table is the catalog's entry for column `i`. -/
theorem colmap_getElem? (m : StrMap) (cols : List String) (cm : List Nat)
    (h : cols.map m = cm.map some) (i : Nat) (c : String) (hc : cols[i]? = some c) :
    ∃ ind, cm[i]? = some ind ∧ m c = some ind := by
  have h1 : (cols.map m)[i]? = (cm.map some)[i]? := by rw [h]
  simp only [List.getElem?_map, hc, Option.map_some'] at h1
  cases hcm : cm[i]? with
  | none => simp [hcm] at h1
  | some ind =>
    simp [hcm] at h1
    exact ⟨ind, rfl, h1⟩

theorem colmap_length (m : StrMap) (cols : List String) (cm : List Nat)
    (h : cols.map m = cm.map some) : cm.length = cols.length := by
  have := congrArg List.length h
  simpa using this.symm

/-! ## Materializing a row -/

theorem addsOf_ret (valr : StructType) :
    ∀ (cm : List Nat),
      (∀ p ∈ cm, ∃ fld, valr[p]? = some fld ∧ fld.IsExported = true) →
      addsOf valr cm = .ret cm := by
  intro cm
  induction cm with
  | nil => intro _; rfl
  | cons ind rest ih =>
    intro h
    obtain ⟨fld, hfld, hexp⟩ := h ind (List.mem_cons_self _ _)
    have hr := ih (fun p hp => h p (List.mem_cons_of_mem _ hp))
    simp [addsOf, hfld, hexp, hr]

theorem addsOf_panic (valr : StructType) (p : Nat) (fld : StructField)
    (hfld : valr[p]? = some fld) (hexp : fld.IsExported = false) :
    ∀ (cm : List Nat), p ∈ cm → (∀ q ∈ cm, q < valr.length) →
      ∃ msg, addsOf valr cm = .panic msg := by
  intro cm
  induction cm with
  | nil => intro h; simp at h
  | cons ind rest ih =>
    intro h hlt
    have hind : ind < valr.length := hlt ind (List.mem_cons_self _ _)
    by_cases hip : ind = p
    · subst hip
      simp [addsOf, hfld, hexp]
    · have hr : p ∈ rest := by
        rcases List.mem_cons.mp h with h | h
        · exact absurd h.symm hip
        · exact h
      obtain ⟨msg, hmsg⟩ := ih hr (fun q hq => hlt q (List.mem_cons_of_mem _ hq))
      cases hg : (valr[ind]?) with
      | none => simp [addsOf, hg]
      | some g =>
        cases hge : g.IsExported with
        | false => simp [addsOf, hg, hge]
        | true => exact ⟨msg, by simp [addsOf, hg, hge, hmsg]⟩

/-- What `Scan` leaves in the struct when every conversion succeeds: no error,
the untouched fields keep their value, and a field holds the converted value of
the last column that points to it. -/
theorem scanInto_spec (L : StdLib) (valr : StructType) :
    ∀ (adds : List Nat) (srcs : List Value) (newval : Record),
      adds.length = srcs.length →
      (∀ (i ind : Nat) (sv : Value), adds[i]? = some ind → srcs[i]? = some sv →
        ∃ (fld : StructField) (v : Value),
          valr[ind]? = some fld ∧ L.convertAssign fld.Typ sv = .ok v) →
      (scanInto L valr adds srcs newval).2 = none ∧
      (scanInto L valr adds srcs newval).1.length = newval.length ∧
      (∀ p, p ∉ adds → (scanInto L valr adds srcs newval).1[p]? = newval[p]?) ∧
      (∀ (i p : Nat) (sv : Value) (fld : StructField) (v : Value),
        adds[i]? = some p → srcs[i]? = some sv → valr[p]? = some fld →
        L.convertAssign fld.Typ sv = .ok v → p < newval.length →
        (∀ j, i < j → adds[j]? ≠ some p) →
        (scanInto L valr adds srcs newval).1[p]? = some v) := by
  intro adds
  induction adds with
  | nil =>
    intro srcs newval _ _
    refine ⟨by simp [scanInto], by simp [scanInto], by simp [scanInto], ?_⟩
    intro i p sv fld v h
    simp at h
  | cons ind adds ih =>
    intro srcs newval hlen hconv
    cases srcs with
    | nil => simp at hlen
    | cons sv0 srcs =>
      obtain ⟨fld0, v0, hfld0, hv0⟩ := hconv 0 ind sv0 (by simp) (by simp)
      have hstep : scanInto L valr (ind :: adds) (sv0 :: srcs) newval
          = scanInto L valr adds srcs (newval.set ind v0) := by
        simp [scanInto, hfld0, hv0]
      rw [hstep]
      obtain ⟨h1, h2, h3, h4⟩ := ih srcs (newval.set ind v0) (by simpa using hlen)
        (fun i x sv hx hsv => hconv (i + 1) x sv (by simpa using hx) (by simpa using hsv))
      refine ⟨h1, by simpa using h2, ?_, ?_⟩
      · intro p hp
        have hpi : ind ≠ p := fun e => hp (by simp [e])
        have hpa : p ∉ adds := fun e => hp (List.mem_cons_of_mem _ e)
        rw [h3 p hpa, List.getElem?_set_ne hpi]
      · intro i p sv fld v hi hsv hfld hv hp hlast
        cases i with
        | zero =>
          simp at hi hsv
          subst hi
          subst hsv
          have hpa : ind ∉ adds := by
            intro hmem
            obtain ⟨j, hj⟩ := List.mem_iff_getElem?.mp hmem
            exact hlast (j + 1) (Nat.succ_pos j) (by simpa using hj)
          rw [hfld0] at hfld
          cases hfld
          rw [hv0] at hv
          cases hv
          rw [h3 ind hpa]
          simp [List.getElem?_set_self, hp]
        | succ i =>
          exact h4 i p sv fld v (by simpa using hi) (by simpa using hsv) hfld hv
            (by simpa using hp)
            (fun j hj hjp => hlast (j + 1) (by omega) (by simpa using hjp))

theorem rowsLoop_nil (L : StdLib) (valr : StructType) (cm : List Nat) (rs : Rows)
    (acc : List Record) : (rowsLoop L valr cm [] rs acc).1 = .ret acc := rfl

/-- When the addresses of the mapped fields can be taken, the loop appends one
struct per row, each one scanned from its own row into a fresh zero struct. -/
theorem rowsLoop_ret (L : StdLib) (valr : StructType) (cm : List Nat)
    (hadds : addsOf valr cm = .ret cm) :
    ∀ (pending : List (List Value)) (rs : Rows) (acc : List Record),
      (∀ row ∈ pending, row.length = cm.length) →
      (rowsLoop L valr cm pending rs acc).1 =
        .ret (acc ++ pending.map (fun row => (scanInto L valr cm row (zeroRecord valr)).1)) := by
  intro pending
  induction pending with
  | nil => intro rs acc _; simp [rowsLoop]
  | cons row rest ih =>
    intro rs acc hlen
    have hrow : cm.length = row.length := (hlen row (List.mem_cons_self _ _)).symm
    simp only [rowsLoop, materialize, hadds, Rows.Scan, hrow, ne_eq, not_true_eq_false,
      if_false]
    rw [ih _ _ (fun r hr => hlen r (List.mem_cons_of_mem _ hr))]
    simp

/-- The first row that reaches a mapped field that is not exported makes the
loop panic. -/
theorem rowsLoop_panic (L : StdLib) (valr : StructType) (cm : List Nat) (msg : String)
    (hadds : addsOf valr cm = .panic msg) (row : List Value) (rest : List (List Value))
    (rs : Rows) (acc : List Record) :
    (rowsLoop L valr cm (row :: rest) rs acc).1 = .panic msg := by
  simp [rowsLoop, materialize, hadds]

/-! ## Unfolding the operations on a successful query -/

theorem GetRows_of_colmap_error (L : StdLib) (ent : Norm) (sql : String) (val : StructType)
    (rows : Rows) (cols : List String) (e : Error)
    (hq : ent.DB.Query sql = .ok rows) (hc : rows.columns = .ok cols)
    (hcm : colmap (strflds L val) cols = .error e) :
    (GetRows L ent sql val).result = .ret (.nil, some e) := by
  simp [GetRows, hq, hc, hcm]

theorem GetRow_of_colmap_error (L : StdLib) (ent : Norm) (sql : String) (val : StructType)
    (rows : Rows) (cols : List String) (e : Error)
    (hq : ent.DB.Query sql = .ok rows) (hc : rows.columns = .ok cols)
    (hcm : colmap (strflds L val) cols = .error e) :
    (GetRow L ent sql val).result = .ret (.nil, some e) := by
  simp [GetRow, hq, hc, hcm]

theorem GetRows_of_colmap_ok (L : StdLib) (ent : Norm) (sql : String) (val : StructType)
    (rows : Rows) (cols : List String) (cm : List Nat)
    (hq : ent.DB.Query sql = .ok rows) (hc : rows.columns = .ok cols)
    (hcm : colmap (strflds L val) cols = .ok cm) :
    (GetRows L ent sql val).result =
      match (rowsLoop L val cm rows.pending rows []).1 with
      | .panic msg => .panic msg
      | .ret slice => .ret (.slice val slice, none) := by
  simp only [GetRows, hq, hc, hcm]
  split <;> simp_all

theorem GetRow_of_colmap_ok_nil (L : StdLib) (ent : Norm) (sql : String) (val : StructType)
    (rows : Rows) (cols : List String) (cm : List Nat)
    (hq : ent.DB.Query sql = .ok rows) (hc : rows.columns = .ok cols)
    (hcm : colmap (strflds L val) cols = .ok cm) (hrows : rows.pending = []) :
    (GetRow L ent sql val).result = .ret (.nil, none) := by
  simp [GetRow, hq, hc, hcm, hrows]

theorem GetRow_of_colmap_ok_cons (L : StdLib) (ent : Norm) (sql : String) (val : StructType)
    (rows : Rows) (cols : List String) (cm : List Nat) (row : List Value)
    (rest : List (List Value))
    (hq : ent.DB.Query sql = .ok rows) (hc : rows.columns = .ok cols)
    (hcm : colmap (strflds L val) cols = .ok cm) (hrows : rows.pending = row :: rest) :
    (GetRow L ent sql val).result =
      match addsOf val cm with
      | .panic msg => .panic msg
      | .ret adds =>
        .ret (.reflectValue val
          (if adds.length ≠ row.length then zeroRecord val
           else (scanInto L val adds row (zeroRecord val)).1), none) := by
  simp only [GetRow, hq, hc, hcm, hrows, materialize, Rows.Scan]
  cases addsOf val cm with
  | panic msg => simp
  | ret adds =>
    by_cases h : adds.length = row.length <;> simp [h]

/-! ## Resolution tables of a fully matched column list -/

theorem forall₂_getElem? {α β : Type} {R : α → β → Prop} :
    ∀ {xs : List α} {ys : List β}, List.Forall₂ R xs ys →
      ∀ (i : Nat) (x : α) (y : β), xs[i]? = some x → ys[i]? = some y → R x y := by
  intro xs ys h
  induction h with
  | nil => intro i x y hx; simp at hx
  | cons hab _ ih =>
    intro i x y hx hy
    cases i with
    | zero =>
      simp at hx hy
      subst hx
      subst hy
      exact hab
    | succ i => exact ih i x y (by simpa using hx) (by simpa using hy)

theorem colmap_entry (m : StrMap) (cols : List String) (cm : List Nat)
    (h : cols.map m = cm.map some) (i ind : Nat) (hi : cm[i]? = some ind) :
    ∃ c, cols[i]? = some c ∧ m c = some ind := by
  have h1 : (cols.map m)[i]? = (cm.map some)[i]? := by rw [h]
  simp only [List.getElem?_map, hi, Option.map_some'] at h1
  cases hc : cols[i]? with
  | none => simp [hc] at h1
  | some c =>
    simp [hc] at h1
    exact ⟨c, rfl, h1⟩

theorem colmap_mem (m : StrMap) (cols : List String) (cm : List Nat)
    (h : cols.map m = cm.map some) (p : Nat) (hp : p ∈ cm) :
    ∃ c ∈ cols, m c = some p := by
  obtain ⟨i, hi⟩ := List.mem_iff_getElem?.mp hp
  obtain ⟨c, hc, hmc⟩ := colmap_entry m cols cm h i p hi
  exact ⟨c, List.getElem?_mem hc, hmc⟩

/-- A row with one convertible value per column, scanned through the
resolution table of a fully matched column list: the struct keeps its number
of fields, and a field holds the converted value of the last column that
resolves to it. -/
theorem scan_matched_row (L : StdLib) (val : StructType) (cols : List String)
    (cm : List Nat) (row : List Value)
    (hmap : cols.map (strflds L val) = cm.map some)
    (hrow : List.Forall₂ (fun c sv => ∀ (p : Nat) (fld : StructField),
      strflds L val c = some p → val[p]? = some fld →
      ∃ v, L.convertAssign fld.Typ sv = .ok v) cols row) :
    row.length = cm.length ∧
    (scanInto L val cm row (zeroRecord val)).1.length = val.length ∧
    ∀ (i : Nat) (c : String) (sv : Value) (p : Nat) (fld : StructField) (v : Value),
      cols[i]? = some c → row[i]? = some sv → strflds L val c = some p →
      val[p]? = some fld → L.convertAssign fld.Typ sv = .ok v →
      (∀ (j : Nat) (c' : String), i < j → cols[j]? = some c' → strflds L val c' ≠ some p) →
      (scanInto L val cm row (zeroRecord val)).1[p]? = some v := by
  have hlen : row.length = cm.length := by
    rw [colmap_length _ cols cm hmap, hrow.length_eq]
  have hconv : ∀ (i ind : Nat) (sv : Value), cm[i]? = some ind → row[i]? = some sv →
      ∃ (fld : StructField) (v : Value),
        val[ind]? = some fld ∧ L.convertAssign fld.Typ sv = .ok v := by
    intro i ind sv hi hsv
    obtain ⟨c, hc, hmc⟩ := colmap_entry _ cols cm hmap i ind hi
    have hlt := strflds_lt L val c ind hmc
    have hfld : val[ind]? = some val[ind] := List.getElem?_eq_getElem hlt
    obtain ⟨v, hv⟩ := forall₂_getElem? hrow i c sv hc hsv ind _ hmc hfld
    exact ⟨_, v, hfld, hv⟩
  obtain ⟨_, h2, _, h4⟩ := scanInto_spec L val cm row (zeroRecord val) hlen.symm hconv
  refine ⟨hlen, by simpa [zeroRecord] using h2, ?_⟩
  intro i c sv p fld v hc hsv hp hfld hv hlast
  obtain ⟨ind, hind, hmc⟩ := colmap_getElem? _ cols cm hmap i c hc
  rw [hp] at hmc
  cases hmc
  refine h4 i p sv fld v hind hsv hfld hv ?_ ?_
  · simpa [zeroRecord] using strflds_lt L val c p hp
  · intro j hj hjp
    obtain ⟨c', hc', hmc'⟩ := colmap_entry _ cols cm hmap j p hjp
    exact hlast j c' hj hc' hmc'

/-- The addresses of the mapped fields can be taken when every field a column
resolves to is exported. -/
theorem addsOf_of_exported (L : StdLib) (val : StructType) (cols : List String)
    (cm : List Nat) (hmap : cols.map (strflds L val) = cm.map some)
    (hexp : ∀ c ∈ cols, ∀ (p : Nat) (fld : StructField),
      strflds L val c = some p → val[p]? = some fld → fld.IsExported = true) :
    addsOf val cm = .ret cm := by
  apply addsOf_ret
  intro p hp
  obtain ⟨c, hc, hmc⟩ := colmap_mem _ cols cm hmap p hp
  have hlt := strflds_lt L val c p hmc
  have hfld : val[p]? = some val[p] := List.getElem?_eq_getElem hlt
  exact ⟨_, hfld, hexp c hc p _ hmc hfld⟩

/-! ## Fetching all rows -/

/-- C1 (amended). For every struct type and every successful query whose column
names are all keys of the catalog, whose rows carry one convertible value per
column and, when there is a row, whose columns all resolve to exported fields:
`GetRows` returns a slice and no error; the slice has one struct per row, the
`k`-th built from the `k`-th row; and in it a field holds the converted value
of column `i` whenever `i` is the last column that resolves to that field. -/
theorem GetRows_matched_columns (L : StdLib) (ent : Norm) (sql : String)
    (val : StructType) (rows : Rows) (cols : List String)
    (hq : ent.DB.Query sql = .ok rows) (hc : rows.columns = .ok cols)
    (hkeys : ∀ c ∈ cols, strflds L val c ≠ none)
    (hexp : rows.pending ≠ [] → ∀ c ∈ cols, ∀ (p : Nat) (fld : StructField),
      strflds L val c = some p → val[p]? = some fld → fld.IsExported = true)
    (hrows : ∀ row ∈ rows.pending,
      List.Forall₂ (fun c sv => ∀ (p : Nat) (fld : StructField),
        strflds L val c = some p → val[p]? = some fld →
        ∃ v, L.convertAssign fld.Typ sv = .ok v) cols row) :
    ∃ list : List Record,
      (GetRows L ent sql val).result = .ret (.slice val list, none) ∧
      list.length = rows.pending.length ∧
      ∀ (k : Nat) (row : List Value), rows.pending[k]? = some row →
        ∃ record : Record, list[k]? = some record ∧ record.length = val.length ∧
          ∀ (i : Nat) (c : String) (sv : Value) (p : Nat) (fld : StructField) (v : Value),
            cols[i]? = some c → row[i]? = some sv → strflds L val c = some p →
            val[p]? = some fld → L.convertAssign fld.Typ sv = .ok v →
            (∀ (j : Nat) (c' : String), i < j → cols[j]? = some c' →
              strflds L val c' ≠ some p) →
            record[p]? = some v := by
  obtain ⟨cm, hcm, hmap⟩ := colmapFrom_ok (strflds L val) cols 0 hkeys
  have hloop : (rowsLoop L val cm rows.pending rows []).1 =
      .ret (rows.pending.map (fun row => (scanInto L val cm row (zeroRecord val)).1)) := by
    cases hp : rows.pending with
    | nil => rfl
    | cons row rest =>
      have hadds := addsOf_of_exported L val cols cm hmap (hexp (by simp [hp]))
      have := rowsLoop_ret L val cm hadds (row :: rest) rows []
        (fun r hr => (scan_matched_row L val cols cm r hmap (hrows r (by rw [hp]; exact hr))).1)
      simpa using this
  refine ⟨rows.pending.map (fun row => (scanInto L val cm row (zeroRecord val)).1),
    ?_, ?_, ?_⟩
  · rw [GetRows_of_colmap_ok L ent sql val rows cols cm hq hc hcm, hloop]
  · simp
  · intro k row hk
    refine ⟨(scanInto L val cm row (zeroRecord val)).1, by simp [hk], ?_⟩
    have := scan_matched_row L val cols cm row hmap (hrows row (List.getElem?_mem hk))
    exact ⟨this.2.1, this.2.2⟩

/-- The scenario of the spec: `(Id int, Name string)`, columns `id`, `name`,
rows `(1,"a")`, `(2,"b")` give `[{1 a} {2 b}]`. -/
theorem GetRows_person_example :
    (GetRows exampleLib (normOf personCursor) "select id, name from person" personType).result
      = .ret (.slice personType [[.int 1, .str "a"], [.int 2, .str "b"]], none) := by
  decide

/-- C1, witness: the amended statement applies to the scenario of the spec, and
there the second struct has `Name = "b"`. -/
theorem GetRows_matched_columns_witness :
    ∃ list : List Record,
      (GetRows exampleLib (normOf personCursor) "select id, name from person"
        personType).result = .ret (.slice personType list, none) ∧
      list.length = 2 ∧
      ∃ record : Record, list[1]? = some record ∧ record[1]? = some (.str "b") := by
  obtain ⟨list, hres, hlen, hall⟩ :=
    GetRows_matched_columns exampleLib (normOf personCursor) "select id, name from person"
      personType personCursor ["id", "name"] rfl rfl (by decide)
      (by
        intro _ c _ p fld _ hf
        have hmem := List.getElem?_mem hf
        simp [personType] at hmem
        rcases hmem with rfl | rfl <;> rfl)
      (by
        intro row hrow
        have hid : strflds exampleLib personType "id" = some 0 := by decide
        have hname : strflds exampleLib personType "name" = some 1 := by decide
        simp [personCursor, cursorOf] at hrow
        rcases hrow with rfl | rfl
        · refine .cons ?_ (.cons ?_ .nil)
          · intro p fld hp hf
            rw [hid] at hp
            cases hp
            simp [personType] at hf
            subst hf
            exact ⟨_, rfl⟩
          · intro p fld hp hf
            rw [hname] at hp
            cases hp
            simp [personType] at hf
            subst hf
            exact ⟨_, rfl⟩
        · refine .cons ?_ (.cons ?_ .nil)
          · intro p fld hp hf
            rw [hid] at hp
            cases hp
            simp [personType] at hf
            subst hf
            exact ⟨_, rfl⟩
          · intro p fld hp hf
            rw [hname] at hp
            cases hp
            simp [personType] at hf
            subst hf
            exact ⟨_, rfl⟩)
  refine ⟨list, hres, hlen, ?_⟩
  obtain ⟨record, hrec, _, hfields⟩ := hall 1 [.int 2, .str "b"] rfl
  refine ⟨record, hrec, ?_⟩
  exact hfields 1 "name" (.str "b") 1 ⟨"Name", "", .string, []⟩ (.str "b") rfl rfl
    (by decide) rfl rfl (by
      intro j c' hj hc'
      have : ([("id" : String), "name"])[j]? = none := by
        apply List.getElem?_eq_none
        simp
        omega
      rw [this] at hc'
      cases hc')

/-- C1, counterexample: with the struct `(Id int)` and a result whose two
columns are both named `id`, row `(1, 2)`: every column is a key of the catalog
and both values are convertible, yet `GetRows` returns `[{2}]`, so the field
that column 0 resolves to does not hold the value of column 0. -/
theorem GetRows_duplicate_column_counterexample :
    (∀ c ∈ ["id", "id"], strflds exampleLib idType c ≠ none) ∧
    (∀ sv ∈ [Value.int 1, Value.int 2], exampleLib.convertAssign .int sv = .ok sv) ∧
    (GetRows exampleLib (normOf twiceIdCursor) "select a as id, b as id from t" idType).result
      = .ret (.slice idType [[.int 2]], none) ∧
    ¬ (∃ list : List Record,
        (GetRows exampleLib (normOf twiceIdCursor) "select a as id, b as id from t"
          idType).result = .ret (.slice idType list, none) ∧
        list.length = twiceIdCursor.pending.length ∧
        ∀ (k : Nat) (row : List Value), twiceIdCursor.pending[k]? = some row →
          ∃ record : Record, list[k]? = some record ∧
            ∀ (i : Nat) (c : String) (sv : Value) (p : Nat) (fld : StructField) (v : Value),
              (["id", "id"] : List String)[i]? = some c → row[i]? = some sv →
              strflds exampleLib idType c = some p → idType[p]? = some fld →
              exampleLib.convertAssign fld.Typ sv = .ok v →
              record[p]? = some v) := by
  refine ⟨by decide, by decide, by decide, ?_⟩
  rintro ⟨list, hres, _, hall⟩
  have heval : (GetRows exampleLib (normOf twiceIdCursor) "select a as id, b as id from t"
      idType).result = .ret (.slice idType [[.int 2]], none) := by decide
  rw [heval] at hres
  have hlist : list = [[.int 2]] := by
    injection hres with h
    injection h with h _
    injection h with _ h
    exact h.symm
  subst hlist
  obtain ⟨record, hrec, hfields⟩ := hall 0 [.int 1, .int 2] rfl
  have hr : record = [.int 2] := by
    simp at hrec
    exact hrec.symm
  subst hr
  have := hfields 0 "id" (.int 1) 0 ⟨"Id", "", .int, []⟩ (.int 1) rfl rfl (by decide) rfl rfl
  simp at this

/-! ## Unmatched columns -/

theorem first_unmatched (m : StrMap) :
    ∀ (cols : List String), (∃ c ∈ cols, m c = none) →
      ∃ (i : Nat) (name : String), cols[i]? = some name ∧ m name = none ∧
        ∀ (j : Nat) (c : String), j < i → cols[j]? = some c → m c ≠ none := by
  intro cols
  induction cols with
  | nil => intro h; simp at h
  | cons c rest ih =>
    intro h
    by_cases hc : m c = none
    · exact ⟨0, c, by simp, hc, fun j _ hj => absurd hj (Nat.not_lt_zero j)⟩
    · have hrest : ∃ x ∈ rest, m x = none := by
        obtain ⟨x, hx, hmx⟩ := h
        rcases List.mem_cons.mp hx with rfl | hx
        · exact absurd hmx hc
        · exact ⟨x, hx, hmx⟩
      obtain ⟨i, name, hi, hname, hfirst⟩ := ih hrest
      refine ⟨i + 1, name, by simpa using hi, hname, ?_⟩
      intro j x hj hx
      cases j with
      | zero =>
        simp at hx
        subst hx
        exact hc
      | succ j => exact hfirst j x (by omega) (by simpa using hx)

/-- C2. For every struct type and every successful query whose column list
holds a name that is not a key of the catalog: there is a first position `i`
whose name is not a key, and `GetRows` and `GetRow` both return `(nil, error)`,
whatever the rows, with the error message `No match for column <i>: <name>`
for that position and its name. -/
theorem unmatched_column_fails (L : StdLib) (ent : Norm) (sql : String) (val : StructType)
    (rows : Rows) (cols : List String)
    (hq : ent.DB.Query sql = .ok rows) (hc : rows.columns = .ok cols)
    (hbad : ∃ c ∈ cols, strflds L val c = none) :
    ∃ (i : Nat) (name : String),
      cols[i]? = some name ∧ strflds L val name = none ∧
      (∀ (j : Nat) (c : String), j < i → cols[j]? = some c → strflds L val c ≠ none) ∧
      (GetRows L ent sql val).result
        = .ret (.nil, some ("No match for column " ++ toString i ++ ": " ++ name)) ∧
      (GetRow L ent sql val).result
        = .ret (.nil, some ("No match for column " ++ toString i ++ ": " ++ name)) := by
  obtain ⟨i, name, hi, hname, hfirst⟩ := first_unmatched (strflds L val) cols hbad
  have hcm : colmap (strflds L val) cols = .error (noMatchMessage i name) := by
    have := colmapFrom_unmatched (strflds L val) name hname cols 0 i hi hfirst
    simpa [colmap] using this
  exact ⟨i, name, hi, hname, hfirst,
    GetRows_of_colmap_error L ent sql val rows cols _ hq hc hcm,
    GetRow_of_colmap_error L ent sql val rows cols _ hq hc hcm⟩

/-- C2, witness: `(Id int, Name string)` with the columns `id`, `nickname`
fails at position 1 with the name `nickname`. -/
theorem unmatched_column_fails_witness :
    (GetRows exampleLib (normOf nicknameCursor) "select id, nickname from person"
      personType).result = .ret (.nil, some "No match for column 1: nickname") ∧
    (GetRow exampleLib (normOf nicknameCursor) "select id, nickname from person"
      personType).result = .ret (.nil, some "No match for column 1: nickname") := by
  obtain ⟨i, name, hi, hname, _, h1, h2⟩ :=
    unmatched_column_fails exampleLib (normOf nicknameCursor)
      "select id, nickname from person" personType nicknameCursor ["id", "nickname"]
      rfl rfl ⟨"nickname", by simp, by decide⟩
  have hid : strflds exampleLib personType "id" ≠ none := by decide
  match i, hi with
  | 0, hi =>
    simp at hi
    subst hi
    exact absurd hname hid
  | 1, hi =>
    simp at hi
    subst hi
    exact ⟨h1, h2⟩
  | n + 2, hi =>
    simp at hi

/-! ## Results without rows -/

/-- C4. For every struct type and every successful query whose columns all
match the catalog and which has no row, `GetRow` returns the nil value and a
nil error. -/
theorem GetRow_no_rows (L : StdLib) (ent : Norm) (sql : String) (val : StructType)
    (rows : Rows) (cols : List String)
    (hq : ent.DB.Query sql = .ok rows) (hc : rows.columns = .ok cols)
    (hkeys : ∀ c ∈ cols, strflds L val c ≠ none) (hrows : rows.pending = []) :
    (GetRow L ent sql val).result = .ret (.nil, none) := by
  obtain ⟨cm, hcm, _⟩ := colmapFrom_ok (strflds L val) cols 0 hkeys
  exact GetRow_of_colmap_ok_nil L ent sql val rows cols cm hq hc hcm hrows

/-- C4, witness: `(Id int, Name string)`, columns `id`, `name`, no row. -/
theorem GetRow_no_rows_witness :
    (GetRow exampleLib (normOf emptyCursor) "select id, name from person where false"
      personType).result = .ret (.nil, none) :=
  GetRow_no_rows exampleLib (normOf emptyCursor) "select id, name from person where false"
    personType emptyCursor ["id", "name"] rfl rfl (by decide) rfl

/-- C5. For every struct type and every successful query whose columns all
match the catalog and which has no row, `GetRows` returns a nil error and a
slice of length 0, which is a slice value and not the nil value. -/
theorem GetRows_no_rows (L : StdLib) (ent : Norm) (sql : String) (val : StructType)
    (rows : Rows) (cols : List String)
    (hq : ent.DB.Query sql = .ok rows) (hc : rows.columns = .ok cols)
    (hkeys : ∀ c ∈ cols, strflds L val c ≠ none) (hrows : rows.pending = []) :
    ∃ list : List Record,
      (GetRows L ent sql val).result = .ret (.slice val list, none) ∧
      list.length = 0 ∧ Iface.slice val list ≠ Iface.nil := by
  obtain ⟨cm, hcm, _⟩ := colmapFrom_ok (strflds L val) cols 0 hkeys
  refine ⟨[], ?_, rfl, by simp⟩
  rw [GetRows_of_colmap_ok L ent sql val rows cols cm hq hc hcm, hrows]
  rfl

/-- C5, witness: `(Id int, Name string)`, columns `id`, `name`, no row. -/
theorem GetRows_no_rows_witness :
    ∃ list : List Record,
      (GetRows exampleLib (normOf emptyCursor) "select id, name from person where false"
        personType).result = .ret (.slice personType list, none) ∧
      list.length = 0 ∧ Iface.slice personType list ≠ Iface.nil :=
  GetRows_no_rows exampleLib (normOf emptyCursor) "select id, name from person where false"
    personType emptyCursor ["id", "name"] rfl rfl (by decide) rfl

/-! ## Lookup names -/

theorem len_pos_iff (s : String) : len s > 0 ↔ s ≠ "" := by
  cases s with
  | mk data =>
    cases data with
    | nil => simp [len, String.utf8ByteSize, String.utf8ByteSize.go]
    | cons c cs =>
      have hc := Char.utf8Size_pos c
      have hne : (String.mk (c :: cs)) ≠ "" := by
        intro h
        have := congrArg String.data h
        simp at this
      simp only [len, String.utf8ByteSize, String.utf8ByteSize.go, gt_iff_lt, ne_eq, hne,
        not_false_eq_true, iff_true]
      omega

theorem cutset_data : (" \t" : String).data = [' ', '\t'] := rfl

theorem Trim_of_blank (t : String) (h : ∀ c ∈ t.data, c = ' ' ∨ c = '\t') :
    strings.Trim t " \t" = "" := by
  have h1 : t.data.dropWhile (fun c => decide (c ∈ (" \t" : String).data)) = [] := by
    rw [List.dropWhile_eq_nil_iff]
    intro c hc
    rcases h c hc with rfl | rfl <;> decide
  simp only [strings.Trim, strings.trimRunes, h1]
  rfl

theorem dropWhile_eq_self_of_head {α : Type} (p : α → Bool) :
    ∀ (l : List α), (∀ c, l.head? = some c → p c = false) → l.dropWhile p = l := by
  intro l h
  cases l with
  | nil => rfl
  | cons c cs =>
    have := h c rfl
    simp [List.dropWhile, this]

theorem Trim_of_trimmed (t : String)
    (hhead : ∀ c, t.data.head? = some c → c ≠ ' ' ∧ c ≠ '\t')
    (hlast : ∀ c, t.data.getLast? = some c → c ≠ ' ' ∧ c ≠ '\t') :
    strings.Trim t " \t" = t := by
  have h1 : t.data.dropWhile (fun c => decide (c ∈ (" \t" : String).data)) = t.data := by
    apply dropWhile_eq_self_of_head
    intro c hc
    have := hhead c hc
    simp [cutset_data, this.1, this.2]
  have h2 : t.data.reverse.dropWhile (fun c => decide (c ∈ (" \t" : String).data))
      = t.data.reverse := by
    apply dropWhile_eq_self_of_head
    intro c hc
    have := hlast c (by simpa using hc)
    simp [cutset_data, this.1, this.2]
  simp only [strings.Trim, strings.trimRunes, h1, h2, List.reverse_reverse]

theorem fieldName_of_override (L : StdLib) (f : StructField)
    (h : strings.Trim (f.Tag.Get "fldnm") " \t" ≠ "") :
    fieldName L f = strings.Trim (f.Tag.Get "fldnm") " \t" := by
  simp [fieldName, (len_pos_iff _).mpr h]

theorem fieldName_of_blank (L : StdLib) (f : StructField)
    (h : strings.Trim (f.Tag.Get "fldnm") " \t" = "") :
    fieldName L f = strings.ToLower L f.Name := by
  have : ¬ len (strings.Trim (f.Tag.Get "fldnm") " \t") > 0 := by
    rw [len_pos_iff]; simp [h]
  simp only [fieldName, this, if_false]

/-! ## Override names -/

/-- C3 (amended). For every struct type in which the field `f` at position `p`
carries a non-blank `fldnm` override, `o` being that override without its
leading and trailing spaces and tabs, `o` different from the lower-cased
declared name of `f`, no later field entered under `o`, and no other field
entered under the lower-cased declared name: the column `o` resolves to `f`,
the lower-cased declared name is not in the catalog, and a successful query
with a column of that name makes `GetRows` and `GetRow` return an error. -/
theorem override_precedence (L : StdLib) (val : StructType) (p : Nat) (f : StructField)
    (hf : val[p]? = some f)
    (hover : strings.Trim (f.Tag.Get "fldnm") " \t" ≠ "")
    (hdiff : strings.Trim (f.Tag.Get "fldnm") " \t" ≠ strings.ToLower L f.Name)
    (hlater : ∀ (q : Nat) (g : StructField), p < q → val[q]? = some g →
      fieldName L g ≠ strings.Trim (f.Tag.Get "fldnm") " \t")
    (hother : ∀ (q : Nat) (g : StructField), q ≠ p → val[q]? = some g →
      fieldName L g ≠ strings.ToLower L f.Name) :
    strflds L val (strings.Trim (f.Tag.Get "fldnm") " \t") = some p ∧
    strflds L val (strings.ToLower L f.Name) = none ∧
    ∀ (ent : Norm) (sql : String) (rows : Rows) (cols : List String),
      ent.DB.Query sql = .ok rows → rows.columns = .ok cols →
      strings.ToLower L f.Name ∈ cols →
      ∃ e : Error, (GetRows L ent sql val).result = .ret (.nil, some e) ∧
        (GetRow L ent sql val).result = .ret (.nil, some e) := by
  have hname := fieldName_of_override L f hover
  have hnone : strflds L val (strings.ToLower L f.Name) = none := by
    rw [strflds_eq_none_iff]
    intro g hg
    obtain ⟨q, hq⟩ := List.mem_iff_getElem?.mp hg
    by_cases hqp : q = p
    · subst hqp
      rw [hf] at hq
      cases hq
      rw [hname]
      exact hdiff
    · exact hother q g hqp hq
  refine ⟨(strflds_eq_some_iff L val _ p).mpr ⟨f, hf, hname, hlater⟩, hnone, ?_⟩
  intro ent sql rows cols hq hc hmem
  obtain ⟨e, he⟩ := colmapFrom_error_of_mem (strflds L val) _ hnone cols 0 hmem
  exact ⟨e, GetRows_of_colmap_error L ent sql val rows cols e hq hc he,
    GetRow_of_colmap_error L ent sql val rows cols e hq hc he⟩

/-- C3, witness: the field `Email` tagged `mail` matches the column `mail` and
not the column `email`, with which the call fails. -/
theorem override_precedence_witness :
    strflds exampleLib mailType "mail" = some 0 ∧
    strflds exampleLib mailType "email" = none ∧
    ∃ e : Error,
      (GetRows exampleLib (normOf (cursorOf ["email"] [[.str "x@y.com"]]))
        "select email from person" mailType).result = .ret (.nil, some e) ∧
      (GetRow exampleLib (normOf (cursorOf ["email"] [[.str "x@y.com"]]))
        "select email from person" mailType).result = .ret (.nil, some e) :=
  have h := override_precedence exampleLib mailType 0
    ⟨"Email", "", .string, [("fldnm", "mail")]⟩ rfl (by decide) (by decide)
    (by
      intro q g hq hg
      have : mailType[q]? = none := List.getElem?_eq_none (by simp [mailType]; omega)
      rw [this] at hg
      cases hg)
    (by
      intro q g hq hg
      have : mailType[q]? = none := List.getElem?_eq_none (by simp [mailType]; omega)
      rw [this] at hg
      cases hg)
  ⟨h.1, h.2.1, h.2.2 (normOf (cursorOf ["email"] [[.str "x@y.com"]]))
    "select email from person" (cursorOf ["email"] [[.str "x@y.com"]]) ["email"] rfl rfl
    (List.mem_singleton.mpr rfl)⟩

/-- C3, counterexample: in `(Email tagged "mail", Mail)` the field `Email`
carries the non-blank override `mail`, different from `email`, and no other
field is entered under `email`; yet the column `mail` resolves to position 1
(`Mail`), not to `Email`, which keeps its zero value. -/
theorem override_shadowed_counterexample :
    mailboxType[0]? = some ⟨"Email", "", .string, [("fldnm", "mail")]⟩ ∧
    strings.Trim "mail" " \t" ≠ "" ∧
    "mail" ≠ strings.ToLower exampleLib "Email" ∧
    (∀ g ∈ mailboxType.drop 1, fieldName exampleLib g ≠ strings.ToLower exampleLib "Email") ∧
    strflds exampleLib mailboxType "mail" = some 1 ∧
    strflds exampleLib mailboxType "mail" ≠ some 0 ∧
    (GetRows exampleLib (normOf (cursorOf ["mail"] [[.str "x@y.com"]]))
      "select mail from person" mailboxType).result
      = .ret (.slice mailboxType [[.str "", .str "x@y.com"]], none) := by
  decide

/-- C9 (amended). For every field whose `fldnm` override is non-blank after
trimming leading and trailing spaces and tabs, the catalog key of the field is
the trimmed override, whatever the case folding is; it is the tag value itself
when that value neither starts nor ends with a space or tab; and a column that
resolves to the field is named by the trimmed override, character for
character. -/
theorem override_lookup_name (L : StdLib) (f : StructField)
    (hover : strings.Trim (f.Tag.Get "fldnm") " \t" ≠ "") :
    fieldName L f = strings.Trim (f.Tag.Get "fldnm") " \t" ∧
    ((∀ c, (f.Tag.Get "fldnm").data.head? = some c → c ≠ ' ' ∧ c ≠ '\t') →
      (∀ c, (f.Tag.Get "fldnm").data.getLast? = some c → c ≠ ' ' ∧ c ≠ '\t') →
      fieldName L f = f.Tag.Get "fldnm") ∧
    ∀ (val : StructType) (p : Nat) (col : String), val[p]? = some f →
      strflds L val col = some p → col = strings.Trim (f.Tag.Get "fldnm") " \t" := by
  have hname := fieldName_of_override L f hover
  refine ⟨hname, ?_, ?_⟩
  · intro hhead hlast
    rw [hname, Trim_of_trimmed _ hhead hlast]
  · intro val p col hf hcol
    obtain ⟨g, hg, hgname, _⟩ := (strflds_eq_some_iff L val col p).mp hcol
    rw [hf] at hg
    cases hg
    rw [← hgname, hname]

/-- C9, witness: the field `Email` tagged `Mail` is entered under `Mail`, with
its capital, and a column resolving to it is named `Mail`. -/
theorem override_lookup_name_witness :
    fieldName exampleLib ⟨"Email", "", .string, [("fldnm", "Mail")]⟩ = "Mail" ∧
    ∀ col : String, strflds exampleLib capitalTagType col = some 0 → col = "Mail" :=
  have h := override_lookup_name exampleLib ⟨"Email", "", .string, [("fldnm", "Mail")]⟩
    (by decide)
  ⟨h.1, fun col hcol => h.2.2 capitalTagType 0 col rfl hcol⟩

/-- C9, counterexample: the tag value `" mail "` is non-blank after trimming,
but the field is entered under `mail`, not under the tag value: the column
named by the tag value character for character is unmatched, and the column
`mail` resolves to the field. -/
theorem override_trimmed_counterexample :
    strings.Trim (StructTag.Get [("fldnm", " mail ")] "fldnm") " \t" ≠ "" ∧
    fieldName exampleLib ⟨"Email", "", .string, [("fldnm", " mail ")]⟩ = "mail" ∧
    fieldName exampleLib ⟨"Email", "", .string, [("fldnm", " mail ")]⟩
      ≠ StructTag.Get [("fldnm", " mail ")] "fldnm" ∧
    strflds exampleLib paddedType " mail " = none ∧
    strflds exampleLib paddedType "mail" = some 0 := by
  decide

/-! ## Declared names -/

/-- C10 (amended). For every field without `fldnm` tag, or whose tag value is
empty or made of spaces and tabs only, the catalog key of the field is the
declared name lower-cased; a column that resolves to the field has that name
(so a column spelled differently does not match); and the column of that name
resolves to the field when no later field is entered under the same name. -/
theorem fallback_lookup_name (L : StdLib) (f : StructField)
    (htag : f.Tag.lookup "fldnm" = none ∨
      ∃ t : String, f.Tag.lookup "fldnm" = some t ∧ ∀ c ∈ t.data, c = ' ' ∨ c = '\t') :
    fieldName L f = strings.ToLower L f.Name ∧
    ∀ (val : StructType) (p : Nat), val[p]? = some f →
      (∀ col : String, strflds L val col = some p → col = strings.ToLower L f.Name) ∧
      ((∀ (q : Nat) (g : StructField), p < q → val[q]? = some g →
          fieldName L g ≠ strings.ToLower L f.Name) →
        strflds L val (strings.ToLower L f.Name) = some p) := by
  have hblank : strings.Trim (f.Tag.Get "fldnm") " \t" = "" := by
    rcases htag with h | ⟨t, h, ht⟩
    · simp only [StructTag.Get, h]
      rfl
    · simp only [StructTag.Get, h]
      exact Trim_of_blank t ht
  have hname := fieldName_of_blank L f hblank
  refine ⟨hname, ?_⟩
  intro val p hf
  constructor
  · intro col hcol
    obtain ⟨g, hg, hgname, _⟩ := (strflds_eq_some_iff L val col p).mp hcol
    rw [hf] at hg
    cases hg
    rw [← hgname, hname]
  · intro hlater
    exact (strflds_eq_some_iff L val _ p).mpr ⟨f, hf, hname, hlater⟩

/-- C10, witness: in `(Id int, Name string)` the field `Id` is entered under
`id`; the column `id` resolves to it and the column `Id` does not. -/
theorem fallback_lookup_name_witness :
    fieldName exampleLib ⟨"Id", "", .int, []⟩ = "id" ∧
    strflds exampleLib personType "id" = some 0 ∧
    strflds exampleLib personType "Id" ≠ some 0 :=
  have h := fallback_lookup_name exampleLib ⟨"Id", "", .int, []⟩ (Or.inl rfl)
  ⟨h.1,
    (h.2 personType 0 rfl).2 (by
      intro q g hq hg
      have hq1 : q = 1 ∨ 2 ≤ q := by omega
      rcases hq1 with rfl | hq2
      · simp [personType] at hg
        subst hg
        decide
      · have : personType[q]? = none := List.getElem?_eq_none (by simp [personType]; omega)
        rw [this] at hg
        cases hg),
    fun hId => absurd ((h.2 personType 0 rfl).1 "Id" hId) (by decide)⟩

/-- C10, counterexample: in `(Id int, ID int)` neither field has a tag and the
column `id` is the lower-cased declared name of `Id`, yet it resolves to
position 1 (`ID`) and not to `Id`. -/
theorem fallback_shadowed_counterexample :
    idPairType[0]? = some ⟨"Id", "", .int, []⟩ ∧
    StructTag.Get [] "fldnm" = "" ∧
    strings.ToLower exampleLib "Id" = "id" ∧
    strflds exampleLib idPairType "id" = some 1 ∧
    strflds exampleLib idPairType "id" ≠ some 0 := by
  decide

/-! ## Fetching the first row -/

/-- C6 (amended). For every struct type and every successful query whose
column names are all keys of the catalog and resolve to exported fields, and
whose first row carries one convertible value per column: `GetRow` returns a
nil error and a value that carries a single struct, in which a field holds the
converted value the first row has in column `i` whenever `i` is the last
column that resolves to that field; and every other query with the same
columns and the same first row yields the same struct, whatever its later
rows. -/
theorem GetRow_first_row (L : StdLib) (ent : Norm) (sql : String) (val : StructType)
    (rows : Rows) (cols : List String) (row : List Value) (rest : List (List Value))
    (hq : ent.DB.Query sql = .ok rows) (hc : rows.columns = .ok cols)
    (hkeys : ∀ c ∈ cols, strflds L val c ≠ none)
    (hrows : rows.pending = row :: rest)
    (hexp : ∀ c ∈ cols, ∀ (p : Nat) (fld : StructField),
      strflds L val c = some p → val[p]? = some fld → fld.IsExported = true)
    (hrow : List.Forall₂ (fun c sv => ∀ (p : Nat) (fld : StructField),
      strflds L val c = some p → val[p]? = some fld →
      ∃ v, L.convertAssign fld.Typ sv = .ok v) cols row) :
    ∃ (res : Iface) (record : Record),
      (GetRow L ent sql val).result = .ret (res, none) ∧
      res.records = [record] ∧
      record.length = val.length ∧
      (∀ (i : Nat) (c : String) (sv : Value) (p : Nat) (fld : StructField) (v : Value),
        cols[i]? = some c → row[i]? = some sv → strflds L val c = some p →
        val[p]? = some fld → L.convertAssign fld.Typ sv = .ok v →
        (∀ (j : Nat) (c' : String), i < j → cols[j]? = some c' →
          strflds L val c' ≠ some p) →
        record[p]? = some v) ∧
      ∀ (ent' : Norm) (sql' : String) (rows' : Rows) (rest' : List (List Value)),
        ent'.DB.Query sql' = .ok rows' → rows'.columns = .ok cols →
        rows'.pending = row :: rest' →
        ∃ res' : Iface, (GetRow L ent' sql' val).result = .ret (res', none) ∧
          res'.records = [record] := by
  obtain ⟨cm, hcm, hmap⟩ := colmapFrom_ok (strflds L val) cols 0 hkeys
  have hadds := addsOf_of_exported L val cols cm hmap hexp
  obtain ⟨hlen, hreclen, hfields⟩ := scan_matched_row L val cols cm row hmap hrow
  have hres : ∀ (ent' : Norm) (sql' : String) (rows' : Rows) (rest' : List (List Value)),
      ent'.DB.Query sql' = .ok rows' → rows'.columns = .ok cols →
      rows'.pending = row :: rest' →
      (GetRow L ent' sql' val).result
        = .ret (.reflectValue val (scanInto L val cm row (zeroRecord val)).1, none) := by
    intro ent' sql' rows' rest' hq' hc' hrows'
    rw [GetRow_of_colmap_ok_cons L ent' sql' val rows' cols cm row rest' hq' hc' hcm hrows',
      hadds]
    simp [hlen]
  exact ⟨_, _, hres ent sql rows rest hq hc hrows, rfl, hreclen, hfields,
    fun ent' sql' rows' rest' hq' hc' hrows' =>
      ⟨_, hres ent' sql' rows' rest' hq' hc' hrows', rfl⟩⟩

/-- The scenario of the spec evaluated: for the field `Email` tagged `e_mail`,
the column `e_mail` and the row `("x@y.com")`, what `GetRow` returns is the
`reflect.Value` of a struct with `Email = "x@y.com"`. -/
theorem GetRow_email_example :
    (GetRow exampleLib (normOf emailCursor) "select e_mail from person" emailType).result
      = .ret (.reflectValue emailType [.str "x@y.com"], none) := by
  decide

/-- C6, witness: the amended statement applies to the scenario of the spec,
and there the struct has `Email = "x@y.com"`. -/
theorem GetRow_first_row_witness :
    ∃ (res : Iface) (record : Record),
      (GetRow exampleLib (normOf emailCursor) "select e_mail from person" emailType).result
        = .ret (res, none) ∧
      res.records = [record] ∧ record[0]? = some (.str "x@y.com") := by
  have hcol : strflds exampleLib emailType "e_mail" = some 0 := by decide
  obtain ⟨res, record, hres, hrec, _, hfields, _⟩ :=
    GetRow_first_row exampleLib (normOf emailCursor) "select e_mail from person" emailType
      emailCursor ["e_mail"] [.str "x@y.com"] [] rfl rfl (by decide) rfl
      (by
        intro c _ p fld _ hf
        have hmem := List.getElem?_mem hf
        simp [emailType] at hmem
        subst hmem
        rfl)
      (by
        refine .cons ?_ .nil
        intro p fld hp hf
        rw [hcol] at hp
        cases hp
        simp [emailType] at hf
        subst hf
        exact ⟨_, rfl⟩)
  refine ⟨res, record, hres, hrec, ?_⟩
  exact hfields 0 "e_mail" (.str "x@y.com") 0 ⟨"Email", "", .string, [("fldnm", "e_mail")]⟩
    (.str "x@y.com") rfl rfl hcol rfl rfl (by
      intro j c' hj hc'
      have : ([("e_mail" : String)])[j]? = none := by
        apply List.getElem?_eq_none
        simp
        omega
      rw [this] at hc'
      cases hc')

/-- C6, counterexample: with the struct `(Id int)` and a result whose two
columns are both named `id`, first row `(1, 2)`: every column is a key of the
catalog and both values are convertible, yet the struct `GetRow` returns is
`{2}`, so the field that column 0 resolves to does not hold the first row's
value for column 0. And with the struct `(Id int, name string)`, columns `id`,
`name`, one row, `GetRow` does not return: the address of the field `name`,
which is not exported, cannot be taken. -/
theorem GetRow_duplicate_column_counterexample :
    (∀ c ∈ ["id", "id"], strflds exampleLib idType c ≠ none) ∧
    (∀ sv ∈ [Value.int 1, Value.int 2], exampleLib.convertAssign .int sv = .ok sv) ∧
    (∃ res : Iface,
      (GetRow exampleLib (normOf twiceIdCursor) "select a as id, b as id from t"
        idType).result = .ret (res, none) ∧ res.records = [[.int 2]]) ∧
    ¬ (∃ (res : Iface) (record : Record),
        (GetRow exampleLib (normOf twiceIdCursor) "select a as id, b as id from t"
          idType).result = .ret (res, none) ∧
        res.records = [record] ∧
        ∀ (i : Nat) (c : String) (sv : Value) (p : Nat) (fld : StructField) (v : Value),
          (["id", "id"] : List String)[i]? = some c →
          ([.int 1, .int 2] : List Value)[i]? = some sv →
          strflds exampleLib idType c = some p → idType[p]? = some fld →
          exampleLib.convertAssign fld.Typ sv = .ok v →
          record[p]? = some v) ∧
    (∀ c ∈ ["id", "name"], strflds exampleLib memberType c ≠ none) ∧
    (GetRow exampleLib (normOf memberCursor) "select id, name from member" memberType).result
      = .panic "reflect.Value.Interface: cannot return value obtained from unexported field or method" := by
  have heval : (GetRow exampleLib (normOf twiceIdCursor) "select a as id, b as id from t"
      idType).result = .ret (.reflectValue idType [.int 2], none) := by decide
  refine ⟨by decide, by decide, ⟨_, heval, rfl⟩, ?_, by decide, by decide⟩
  rintro ⟨res, record, hres, hrec, hfields⟩
  rw [heval] at hres
  have hv : res = .reflectValue idType [.int 2] := by
    injection hres with h
    injection h with h _
    exact h.symm
  subst hv
  have hr : record = [.int 2] := by
    simp [Iface.records] at hrec
    exact hrec.symm
  subst hr
  have := hfields 0 "id" (.int 1) 0 ⟨"Id", "", .int, []⟩ (.int 1) rfl rfl (by decide) rfl rfl
  simp at this

/-- A column that resolves to a field that is not exported: taking the
field's address as an interface panics on the first row, in both fetches. -/
theorem unexported_field_example :
    (GetRows exampleLib (normOf memberCursor) "select id, name from member" memberType).result
      = .panic "reflect.Value.Interface: cannot return value obtained from unexported field or method" ∧
    (GetRow exampleLib (normOf memberCursor) "select id, name from member" memberType).result
      = .panic "reflect.Value.Interface: cannot return value obtained from unexported field or method" := by
  decide

/-! ## The text operations -/

theorem GetRowsJson_result (L : StdLib) (ent : Norm) (sql : String) (val : StructType) :
    (GetRowsJson L ent sql val).result =
      match (GetRows L ent sql val).result with
      | .panic msg => .panic msg
      | .ret (_, some e) => .ret ("[]", some e)
      | .ret (vals, none) => .ret ((jsonMarshal L vals).1, none) := by
  unfold GetRowsJson
  rcases GetRows L ent sql val with ⟨result, cursor⟩
  rcases result with ⟨vals, err⟩ | msg
  · cases err <;> rfl
  · rfl

theorem GetRowJson_result (L : StdLib) (ent : Norm) (sql : String) (val : StructType) :
    (GetRowJson L ent sql val).result =
      match (GetRow L ent sql val).result with
      | .panic msg => .panic msg
      | .ret (_, some e) => .ret ("", some e)
      | .ret (vals, none) => .ret ((jsonMarshal L vals).1, none) := by
  unfold GetRowJson
  rcases GetRow L ent sql val with ⟨result, cursor⟩
  rcases result with ⟨vals, err⟩ | msg
  · cases err <;> rfl
  · rfl

/-- C7. For every struct type and every query for which `GetRows` returns an
error, whatever its cause, `GetRowsJson` returns the text `[]` and that same
error. -/
theorem GetRowsJson_on_error (L : StdLib) (ent : Norm) (sql : String) (val : StructType)
    (vals : Iface) (e : Error)
    (h : (GetRows L ent sql val).result = .ret (vals, some e)) :
    (GetRowsJson L ent sql val).result = .ret ("[]", some e) := by
  rw [GetRowsJson_result, h]

/-- C7, witness: the unmatched column `nickname`. -/
theorem GetRowsJson_on_error_witness :
    (GetRowsJson exampleLib (normOf nicknameCursor) "select id, nickname from person"
      personType).result = .ret ("[]", some "No match for column 1: nickname") :=
  GetRowsJson_on_error exampleLib (normOf nicknameCursor) "select id, nickname from person"
    personType .nil "No match for column 1: nickname" (by decide)

/-- The three causes of an error in `GetRows`: the query fails, the column
names cannot be obtained, a column is unmatched. In each `GetRowsJson` returns
`[]` and the error. -/
theorem GetRowsJson_error_causes (L : StdLib) (sql : String) (val : StructType) (e : Error) :
    (GetRowsJson L ⟨⟨fun _ => .error e⟩, "postgres", ""⟩ sql val).result
      = .ret ("[]", some e) ∧
    (GetRowsJson L (normOf ⟨.error e, [], none, false⟩) sql val).result
      = .ret ("[]", some e) ∧
    (GetRowsJson exampleLib (normOf nicknameCursor) "select id, nickname from person"
      personType).result = .ret ("[]", some "No match for column 1: nickname") := by
  refine ⟨?_, ?_, by decide⟩
  · rw [GetRowsJson_result]; rfl
  · rw [GetRowsJson_result]; rfl

/-- C8 (amended). For every struct type and every successful query whose
columns all match the catalog and which has no row, `GetRowJson` returns a nil
error and the text `null`, the JSON encoding of the nil value `GetRow`
returned. -/
theorem GetRowJson_no_rows (L : StdLib) (ent : Norm) (sql : String) (val : StructType)
    (rows : Rows) (cols : List String)
    (hq : ent.DB.Query sql = .ok rows) (hc : rows.columns = .ok cols)
    (hkeys : ∀ c ∈ cols, strflds L val c ≠ none) (hrows : rows.pending = []) :
    (GetRowJson L ent sql val).result = .ret ("null", none) := by
  obtain ⟨cm, hcm, _⟩ := colmapFrom_ok (strflds L val) cols 0 hkeys
  rw [GetRowJson_result,
    GetRow_of_colmap_ok_nil L ent sql val rows cols cm hq hc hcm hrows]
  rfl

/-- C8, witness: `(Id int, Name string)`, columns `id`, `name`, no row. -/
theorem GetRowJson_no_rows_witness :
    (GetRowJson exampleLib (normOf emptyCursor) "select id, name from person where false"
      personType).result = .ret ("null", none) :=
  GetRowJson_no_rows exampleLib (normOf emptyCursor) "select id, name from person where false"
    personType emptyCursor ["id", "name"] rfl rfl (by decide) rfl

/-- C8, counterexample: on a successful query with matching columns and no
row, the text `GetRowJson` returns is `null`, not the empty text. -/
theorem GetRowJson_no_rows_counterexample :
    (∀ c ∈ ["id", "name"], strflds exampleLib personType c ≠ none) ∧
    emptyCursor.pending = [] ∧
    (GetRowJson exampleLib (normOf emptyCursor) "select id, name from person where false"
      personType).result = .ret ("null", none) ∧
    (GetRowJson exampleLib (normOf emptyCursor) "select id, name from person where false"
      personType).result ≠ .ret ("", none) := by
  decide

/-- With a row, the text `GetRowJson` returns is the encoding of the
`reflect.Value` that `GetRow` hands back, an object without members, whatever
the struct holds. -/
theorem GetRowJson_row_example :
    (GetRowJson exampleLib (normOf emailCursor) "select e_mail from person" emailType).result
      = .ret ("\x7b\x7d", none) := by
  decide

/-! ## What a scan can touch -/

/-- The scan keeps the number of fields and leaves alone every field that is
not among its destinations, whether or not the conversions succeed. -/
theorem scanInto_untouched (L : StdLib) (valr : StructType) :
    ∀ (adds : List Nat) (srcs : List Value) (newval : Record),
      (scanInto L valr adds srcs newval).1.length = newval.length ∧
      ∀ p, p ∉ adds → (scanInto L valr adds srcs newval).1[p]? = newval[p]? := by
  intro adds
  induction adds with
  | nil => intro srcs newval; simp [scanInto]
  | cons ind adds ih =>
    intro srcs newval
    cases srcs with
    | nil => simp [scanInto]
    | cons sv srcs =>
      cases hfld : valr[ind]? with
      | none => simp [scanInto, hfld]
      | some fld =>
        cases hv : L.convertAssign fld.Typ sv with
        | error e => simp [scanInto, hfld, hv]
        | ok v =>
          have hstep : scanInto L valr (ind :: adds) (sv :: srcs) newval
              = scanInto L valr adds srcs (newval.set ind v) := by
            simp [scanInto, hfld, hv]
          rw [hstep]
          obtain ⟨h1, h2⟩ := ih srcs (newval.set ind v)
          refine ⟨by simpa using h1, ?_⟩
          intro p hp
          have hpi : ind ≠ p := fun e => hp (by simp [e])
          have hpa : p ∉ adds := fun e => hp (List.mem_cons_of_mem _ e)
          rw [h2 p hpa, List.getElem?_set_ne hpi]

theorem addsOf_eq (valr : StructType) :
    ∀ (cm adds : List Nat), addsOf valr cm = .ret adds → adds = cm := by
  intro cm
  induction cm with
  | nil =>
    intro adds h
    simp [addsOf] at h
    exact h
  | cons ind rest ih =>
    intro adds h
    unfold addsOf at h
    cases hfld : valr[ind]? with
    | none => simp [hfld] at h
    | some fld =>
      simp only [hfld] at h
      cases hexp : fld.IsExported with
      | false => simp [hexp] at h
      | true =>
        simp only [hexp, if_true] at h
        cases hrest : addsOf valr rest with
        | panic msg => simp [hrest] at h
        | ret tl =>
          simp only [hrest] at h
          have htl := ih tl hrest
          injection h with h
          rw [← h, htl]

/-- When every position of the table is a field position, the only panic the
computation of `adds` can raise is the one for a field that is not exported. -/
theorem addsOf_panic_msg (valr : StructType) :
    ∀ (cm : List Nat) (msg : String), (∀ p ∈ cm, p < valr.length) →
      addsOf valr cm = .panic msg →
      msg = "reflect.Value.Interface: cannot return value obtained from unexported field or method" := by
  intro cm
  induction cm with
  | nil => intro msg _ h; simp [addsOf] at h
  | cons ind rest ih =>
    intro msg hlt h
    have hind : ind < valr.length := hlt ind (List.mem_cons_self _ _)
    have hfld : valr[ind]? = some valr[ind] := List.getElem?_eq_getElem hind
    unfold addsOf at h
    simp only [hfld] at h
    cases hexp : (valr[ind]).IsExported with
    | false =>
      simp [hexp] at h
      exact h.symm
    | true =>
      simp only [hexp, if_true] at h
      cases hrest : addsOf valr rest with
      | ret tl => simp [hrest] at h
      | panic m =>
        simp only [hrest] at h
        injection h with h
        rw [← h]
        exact ih m (fun p hp => hlt p (List.mem_cons_of_mem _ hp)) hrest

/-- A struct that `materialize` returns has the fields of the type, and each
field outside the table still holds its zero value. -/
theorem materialize_ret (L : StdLib) (valr : StructType) (cm : List Nat) (rs : Rows)
    (record : Record) (h : materialize L valr cm rs = .ret record) :
    record.length = valr.length ∧
    ∀ (p : Nat) (fld : StructField), valr[p]? = some fld → p ∉ cm →
      record[p]? = some fld.Typ.zero := by
  unfold materialize at h
  cases hadds : addsOf valr cm with
  | panic msg => simp [hadds] at h
  | ret adds =>
    simp only [hadds] at h
    have hcm := addsOf_eq valr cm adds hadds
    subst hcm
    injection h with h
    have hzero : ∀ (p : Nat) (fld : StructField), valr[p]? = some fld →
        (zeroRecord valr)[p]? = some fld.Typ.zero := by
      intro p fld hp
      simp [zeroRecord, hp]
    have hscan : record.length = (zeroRecord valr).length ∧
        ∀ p, p ∉ adds → record[p]? = (zeroRecord valr)[p]? := by
      rw [← h]
      unfold Rows.Scan
      cases rs.lastcols with
      | none => simp
      | some lastcols =>
        by_cases hlen : adds.length = lastcols.length
        · simpa [hlen] using scanInto_untouched L valr adds lastcols (zeroRecord valr)
        · simp [hlen]
    refine ⟨by simpa [zeroRecord] using hscan.1, ?_⟩
    intro p fld hp hpc
    rw [hscan.2 p hpc, hzero p fld hp]

theorem materialize_panic (L : StdLib) (valr : StructType) (cm : List Nat) (rs : Rows)
    (msg : String) (h : materialize L valr cm rs = .panic msg) :
    addsOf valr cm = .panic msg := by
  unfold materialize at h
  cases hadds : addsOf valr cm with
  | panic m =>
    simp only [hadds] at h
    injection h with h
    rw [h]
  | ret adds => simp [hadds] at h

/-- Every struct the loop appends has the fields of the type, with the zero
value in each field outside the table; the loop appends one struct per row. -/
theorem rowsLoop_ret_inv (L : StdLib) (valr : StructType) (cm : List Nat) :
    ∀ (pending : List (List Value)) (rs : Rows) (acc list : List Record),
      (rowsLoop L valr cm pending rs acc).1 = .ret list →
      list.length = acc.length + pending.length ∧
      ∀ record ∈ list, record ∈ acc ∨
        (record.length = valr.length ∧
          ∀ (p : Nat) (fld : StructField), valr[p]? = some fld → p ∉ cm →
            record[p]? = some fld.Typ.zero) := by
  intro pending
  induction pending with
  | nil =>
    intro rs acc list h
    simp [rowsLoop] at h
    subst h
    exact ⟨by simp, fun record hr => Or.inl hr⟩
  | cons row rest ih =>
    intro rs acc list h
    unfold rowsLoop at h
    cases hm : materialize L valr cm { rs with pending := rest, lastcols := some row } with
    | panic msg => simp [hm] at h
    | ret newval =>
      simp only [hm] at h
      obtain ⟨hlen, hall⟩ := ih _ _ list h
      refine ⟨by simp at hlen ⊢; omega, ?_⟩
      intro record hr
      rcases hall record hr with hacc | hnew
      · rcases List.mem_append.mp hacc with hacc | hacc
        · exact Or.inl hacc
        · have : record = newval := by simpa using hacc
          subst this
          exact Or.inr (materialize_ret L valr cm _ record hm)
      · exact Or.inr hnew

theorem rowsLoop_panic_inv (L : StdLib) (valr : StructType) (cm : List Nat) (msg : String) :
    ∀ (pending : List (List Value)) (rs : Rows) (acc : List Record),
      (rowsLoop L valr cm pending rs acc).1 = .panic msg → addsOf valr cm = .panic msg := by
  intro pending
  induction pending with
  | nil => intro rs acc h; simp [rowsLoop] at h
  | cons row rest ih =>
    intro rs acc h
    unfold rowsLoop at h
    cases hm : materialize L valr cm { rs with pending := rest, lastcols := some row } with
    | panic m =>
      simp only [hm] at h
      injection h with h
      rw [← h]
      exact materialize_panic L valr cm _ m hm
    | ret newval =>
      simp only [hm] at h
      exact ih _ _ h

theorem rowsLoop_columns (L : StdLib) (valr : StructType) (cm : List Nat) :
    ∀ (pending : List (List Value)) (rs : Rows) (acc : List Record),
      (rowsLoop L valr cm pending rs acc).2.columns = rs.columns := by
  intro pending
  induction pending with
  | nil => intro rs acc; rfl
  | cons row rest ih =>
    intro rs acc
    unfold rowsLoop
    cases hm : materialize L valr cm { rs with pending := rest, lastcols := some row } with
    | panic m => simp only [hm]
    | ret newval =>
      simp only [hm]
      rw [ih]

/-- The positions of a resolution table over the catalog are field positions. -/
theorem colmap_lt (L : StdLib) (val : StructType) (cols : List String) (cm : List Nat)
    (hcm : colmap (strflds L val) cols = .ok cm) : ∀ p ∈ cm, p < val.length := by
  intro p hp
  have hmap := colmapFrom_ok_inv (strflds L val) cols 0 cm hcm
  obtain ⟨c, _, hc⟩ := colmap_mem _ cols cm hmap p hp
  exact strflds_lt L val c p hc

/-- A field that no column resolves to is outside the resolution table. -/
theorem not_mem_colmap (L : StdLib) (val : StructType) (cols : List String) (cm : List Nat)
    (hcm : colmap (strflds L val) cols = .ok cm) (p : Nat)
    (hp : ∀ c ∈ cols, strflds L val c ≠ some p) : p ∉ cm := by
  intro hmem
  have hmap := colmapFrom_ok_inv (strflds L val) cols 0 cm hcm
  obtain ⟨c, hc, hcp⟩ := colmap_mem _ cols cm hmap p hmem
  exact hp c hc hcp

/-! ## Reading a result back -/

theorem GetRows_panic_inv (L : StdLib) (ent : Norm) (sql : String) (val : StructType)
    (msg : String) (h : (GetRows L ent sql val).result = .panic msg) :
    ∃ (cols : List String) (cm : List Nat),
      colmap (strflds L val) cols = .ok cm ∧ addsOf val cm = .panic msg := by
  cases hq : ent.DB.Query sql with
  | error e => simp [GetRows, hq] at h
  | ok rows =>
    cases hc : rows.columns with
    | error e => simp [GetRows, hq, hc] at h
    | ok cols =>
      cases hcm : colmap (strflds L val) cols with
      | error e =>
        rw [GetRows_of_colmap_error L ent sql val rows cols e hq hc hcm] at h
        cases h
      | ok cm =>
        rw [GetRows_of_colmap_ok L ent sql val rows cols cm hq hc hcm] at h
        cases hl : (rowsLoop L val cm rows.pending rows []).1 with
        | ret slice =>
          rw [hl] at h
          cases h
        | panic m =>
          rw [hl] at h
          injection h with h
          subst h
          exact ⟨cols, cm, hcm, rowsLoop_panic_inv L val cm m _ _ _ hl⟩

theorem GetRow_panic_inv (L : StdLib) (ent : Norm) (sql : String) (val : StructType)
    (msg : String) (h : (GetRow L ent sql val).result = .panic msg) :
    ∃ (cols : List String) (cm : List Nat),
      colmap (strflds L val) cols = .ok cm ∧ addsOf val cm = .panic msg := by
  cases hq : ent.DB.Query sql with
  | error e => simp [GetRow, hq] at h
  | ok rows =>
    cases hc : rows.columns with
    | error e => simp [GetRow, hq, hc] at h
    | ok cols =>
      cases hcm : colmap (strflds L val) cols with
      | error e =>
        rw [GetRow_of_colmap_error L ent sql val rows cols e hq hc hcm] at h
        cases h
      | ok cm =>
        cases hp : rows.pending with
        | nil =>
          rw [GetRow_of_colmap_ok_nil L ent sql val rows cols cm hq hc hcm hp] at h
          cases h
        | cons row rest =>
          rw [GetRow_of_colmap_ok_cons L ent sql val rows cols cm row rest hq hc hcm hp] at h
          cases hadds : addsOf val cm with
          | ret adds =>
            rw [hadds] at h
            cases h
          | panic m =>
            rw [hadds] at h
            injection h with h
            subst h
            exact ⟨cols, cm, hcm, hadds⟩

theorem GetRows_ret_inv (L : StdLib) (ent : Norm) (sql : String) (val : StructType)
    (rows : Rows) (cols : List String) (list : List Record)
    (hq : ent.DB.Query sql = .ok rows) (hc : rows.columns = .ok cols)
    (h : (GetRows L ent sql val).result = .ret (.slice val list, none)) :
    ∃ cm : List Nat, colmap (strflds L val) cols = .ok cm ∧
      (rowsLoop L val cm rows.pending rows []).1 = .ret list := by
  cases hcm : colmap (strflds L val) cols with
  | error e =>
    rw [GetRows_of_colmap_error L ent sql val rows cols e hq hc hcm] at h
    injection h with h
    injection h with h _
    cases h
  | ok cm =>
    rw [GetRows_of_colmap_ok L ent sql val rows cols cm hq hc hcm] at h
    cases hl : (rowsLoop L val cm rows.pending rows []).1 with
    | panic m =>
      rw [hl] at h
      cases h
    | ret slice =>
      rw [hl] at h
      injection h with h
      injection h with h _
      injection h with _ h
      subst h
      exact ⟨cm, rfl, hl⟩

theorem GetRow_ret_inv (L : StdLib) (ent : Norm) (sql : String) (val : StructType)
    (rows : Rows) (cols : List String) (record : Record)
    (hq : ent.DB.Query sql = .ok rows) (hc : rows.columns = .ok cols)
    (h : (GetRow L ent sql val).result = .ret (.reflectValue val record, none)) :
    ∃ (cm : List Nat) (row : List Value) (rest : List (List Value)),
      colmap (strflds L val) cols = .ok cm ∧ rows.pending = row :: rest ∧
      materialize L val cm { rows with pending := rest, lastcols := some row }
        = .ret record := by
  cases hcm : colmap (strflds L val) cols with
  | error e =>
    rw [GetRow_of_colmap_error L ent sql val rows cols e hq hc hcm] at h
    injection h with h
    injection h with h _
    cases h
  | ok cm =>
    cases hp : rows.pending with
    | nil =>
      rw [GetRow_of_colmap_ok_nil L ent sql val rows cols cm hq hc hcm hp] at h
      injection h with h
      injection h with h _
      cases h
    | cons row rest =>
      rw [GetRow_of_colmap_ok_cons L ent sql val rows cols cm row rest hq hc hcm hp] at h
      cases hadds : addsOf val cm with
      | panic m =>
        rw [hadds] at h
        cases h
      | ret adds =>
        rw [hadds] at h
        injection h with h
        injection h with h _
        injection h with _ h
        refine ⟨cm, row, rest, rfl, rfl, ?_⟩
        rw [← h]
        simp only [materialize, hadds, Rows.Scan]
        by_cases hlen : adds.length = row.length <;> simp [hlen]

/-! ## Scan errors -/

/-- C11, failing input: `(Id int, Name string)`, columns `id`, `name`, rows
`(NULL, "a")`, `(2, "b")`. The scan of the first row fails on the NULL, which
has no conversion to `int`; the error is dropped, and `GetRows` returns both
structs, the first one left at its zero values, with a nil error; `GetRow`
returns that first struct with a nil error. -/
theorem scan_error_dropped_example :
    (∀ c ∈ ["id", "name"], strflds exampleLib personType c ≠ none) ∧
    (Rows.Scan exampleLib ⟨.ok ["id", "name"], [], some [.null, .str "a"], false⟩
      personType [0, 1] (zeroRecord personType)).2 ≠ none ∧
    (GetRows exampleLib (normOf nullIdCursor) "select id, name from person" personType).result
      = .ret (.slice personType [[.int 0, .str ""], [.int 2, .str "b"]], none) ∧
    (GetRow exampleLib (normOf nullIdCursor) "select id, name from person" personType).result
      = .ret (.reflectValue personType [.int 0, .str ""], none) := by
  decide

/-! ## The cursor is released -/

theorem GetRows_cursor (L : StdLib) (ent : Norm) (sql : String) (val : StructType)
    (rows : Rows) (hq : ent.DB.Query sql = .ok rows) :
    ∃ c : Rows, (GetRows L ent sql val).cursor = some c ∧ c.closed = true ∧
      c.columns = rows.columns := by
  cases hc : rows.columns with
  | error e => exact ⟨rows.Close, by simp [GetRows, hq, hc], rfl, hc⟩
  | ok cols =>
    cases hcm : colmap (strflds L val) cols with
    | error e => exact ⟨rows.Close, by simp [GetRows, hq, hc, hcm], rfl, hc⟩
    | ok cm =>
      have hcols := rowsLoop_columns L val cm rows.pending rows []
      rcases hl : rowsLoop L val cm rows.pending rows [] with ⟨out, rows'⟩
      rw [hl] at hcols
      cases out with
      | panic msg =>
        exact ⟨rows'.Close, by simp [GetRows, hq, hc, hcm, hl], rfl, by rw [← hc]; exact hcols⟩
      | ret slice =>
        exact ⟨rows'.Close, by simp [GetRows, hq, hc, hcm, hl], rfl, by rw [← hc]; exact hcols⟩

theorem GetRow_cursor (L : StdLib) (ent : Norm) (sql : String) (val : StructType)
    (rows : Rows) (hq : ent.DB.Query sql = .ok rows) :
    ∃ c : Rows, (GetRow L ent sql val).cursor = some c ∧ c.closed = true ∧
      c.columns = rows.columns := by
  cases hc : rows.columns with
  | error e => exact ⟨rows.Close, by simp [GetRow, hq, hc], rfl, hc⟩
  | ok cols =>
    cases hcm : colmap (strflds L val) cols with
    | error e => exact ⟨rows.Close, by simp [GetRow, hq, hc, hcm], rfl, hc⟩
    | ok cm =>
      cases hp : rows.pending with
      | nil =>
        exact ⟨{ rows with lastcols := none }.Close, by simp [GetRow, hq, hc, hcm, hp],
          rfl, hc⟩
      | cons row rest =>
        cases hm : materialize L val cm
            { rows with pending := rest, lastcols := some row } with
        | panic msg =>
          refine ⟨Rows.Close { rows with pending := rest, lastcols := some row }, ?_, rfl, hc⟩
          rw [hc] at hm
          simp [GetRow, hq, hc, hcm, hp, hm]
        | ret newval =>
          refine ⟨Rows.Close { rows with pending := rest, lastcols := some row }, ?_, rfl, hc⟩
          rw [hc] at hm
          simp [GetRow, hq, hc, hcm, hp, hm]

/-- C12. With the cursor as explicit state: whenever the query succeeds and
yields a cursor, `GetRows` and `GetRow` leave that cursor closed when they
return, on every path (column names unavailable, unmatched column, no row,
completion, and also a panic); when the query fails there is no cursor and
none is closed. -/
theorem cursor_released (L : StdLib) (ent : Norm) (sql : String) (val : StructType) :
    (∀ rows : Rows, ent.DB.Query sql = .ok rows →
      (∃ c : Rows, (GetRows L ent sql val).cursor = some c ∧ c.closed = true ∧
        c.columns = rows.columns) ∧
      (∃ c : Rows, (GetRow L ent sql val).cursor = some c ∧ c.closed = true ∧
        c.columns = rows.columns)) ∧
    (∀ e : Error, ent.DB.Query sql = .error e →
      (GetRows L ent sql val).cursor = none ∧ (GetRow L ent sql val).cursor = none) := by
  constructor
  · intro rows hq
    exact ⟨GetRows_cursor L ent sql val rows hq, GetRow_cursor L ent sql val rows hq⟩
  · intro e hq
    simp [GetRows, GetRow, hq]

/-- C12, witness: the cursor of the scenario with two rows is closed after
both fetches, and a failing query leaves no cursor. -/
theorem cursor_released_witness :
    ((∃ c : Rows, (GetRows exampleLib (normOf personCursor) "select id, name from person"
        personType).cursor = some c ∧ c.closed = true ∧ c.columns = personCursor.columns) ∧
      (∃ c : Rows, (GetRow exampleLib (normOf personCursor) "select id, name from person"
        personType).cursor = some c ∧ c.closed = true ∧ c.columns = personCursor.columns)) ∧
    ((GetRows exampleLib (failingNorm "pq: syntax error") "selec" personType).cursor = none ∧
      (GetRow exampleLib (failingNorm "pq: syntax error") "selec" personType).cursor = none) :=
  ⟨(cursor_released exampleLib (normOf personCursor) "select id, name from person"
      personType).1 personCursor rfl,
    (cursor_released exampleLib (failingNorm "pq: syntax error") "selec" personType).2
      "pq: syntax error" rfl⟩

/-- The exit paths one by one, for `GetRows` and `GetRow`: column names
unavailable, unmatched column, no row, completion, panic. The cursor ends
closed in each. -/
theorem cursor_released_paths :
    ∀ rs ∈ [(⟨.error "sql: Rows are closed", [], none, false⟩ : Rows), nicknameCursor,
        emptyCursor, personCursor],
      ((GetRows exampleLib (normOf rs) "q" personType).cursor.map (fun c => c.closed))
        = some true ∧
      ((GetRow exampleLib (normOf rs) "q" personType).cursor.map (fun c => c.closed))
        = some true := by
  decide

theorem cursor_released_on_panic :
    ((GetRows exampleLib (normOf memberCursor) "q" memberType).cursor.map
      (fun c => c.closed)) = some true ∧
    ((GetRow exampleLib (normOf memberCursor) "q" memberType).cursor.map
      (fun c => c.closed)) = some true := by
  decide

/-! ## The first-row text operation on an error -/

/-- C13. For every struct type and every query for which `GetRow` returns an
error, `GetRowJson` returns the empty text and that same error. -/
theorem GetRowJson_on_error (L : StdLib) (ent : Norm) (sql : String) (val : StructType)
    (vals : Iface) (e : Error)
    (h : (GetRow L ent sql val).result = .ret (vals, some e)) :
    (GetRowJson L ent sql val).result = .ret ("", some e) := by
  rw [GetRowJson_result, h]

/-- C13, witness: the unmatched column `nickname`. -/
theorem GetRowJson_on_error_witness :
    (GetRowJson exampleLib (normOf nicknameCursor) "select id, nickname from person"
      personType).result = .ret ("", some "No match for column 1: nickname") :=
  GetRowJson_on_error exampleLib (normOf nicknameCursor) "select id, nickname from person"
    personType .nil "No match for column 1: nickname" (by decide)

/-! ## Duplicate lookup names -/

theorem GetRows_matched_list (L : StdLib) (ent : Norm) (sql : String)
    (val : StructType) (rows : Rows) (cols : List String)
    (hq : ent.DB.Query sql = .ok rows) (hc : rows.columns = .ok cols)
    (hkeys : ∀ c ∈ cols, strflds L val c ≠ none)
    (hexp : rows.pending ≠ [] → ∀ c ∈ cols, ∀ (p : Nat) (fld : StructField),
      strflds L val c = some p → val[p]? = some fld → fld.IsExported = true)
    (hrows : ∀ row ∈ rows.pending,
      List.Forall₂ (fun c sv => ∀ (p : Nat) (fld : StructField),
        strflds L val c = some p → val[p]? = some fld →
        ∃ v, L.convertAssign fld.Typ sv = .ok v) cols row) :
    ∃ cm : List Nat, cols.map (strflds L val) = cm.map some ∧
      (GetRows L ent sql val).result = .ret (.slice val
        (rows.pending.map (fun row => (scanInto L val cm row (zeroRecord val)).1)), none) := by
  obtain ⟨cm, hcm, hmap⟩ := colmapFrom_ok (strflds L val) cols 0 hkeys
  have hloop : (rowsLoop L val cm rows.pending rows []).1 =
      .ret (rows.pending.map (fun row => (scanInto L val cm row (zeroRecord val)).1)) := by
    cases hp : rows.pending with
    | nil => rfl
    | cons row rest =>
      have hadds := addsOf_of_exported L val cols cm hmap (hexp (by simp [hp]))
      have := rowsLoop_ret L val cm hadds (row :: rest) rows []
        (fun r hr => (scan_matched_row L val cols cm r hmap (hrows r (by rw [hp]; exact hr))).1)
      simpa using this
  refine ⟨cm, hmap, ?_⟩
  rw [GetRows_of_colmap_ok L ent sql val rows cols cm hq hc hcm, hloop]

theorem GetRow_matched_record (L : StdLib) (ent : Norm) (sql : String) (val : StructType)
    (rows : Rows) (cols : List String) (row : List Value) (rest : List (List Value))
    (hq : ent.DB.Query sql = .ok rows) (hc : rows.columns = .ok cols)
    (hkeys : ∀ c ∈ cols, strflds L val c ≠ none)
    (hrows : rows.pending = row :: rest)
    (hexp : ∀ c ∈ cols, ∀ (p : Nat) (fld : StructField),
      strflds L val c = some p → val[p]? = some fld → fld.IsExported = true)
    (hrow : List.Forall₂ (fun c sv => ∀ (p : Nat) (fld : StructField),
      strflds L val c = some p → val[p]? = some fld →
      ∃ v, L.convertAssign fld.Typ sv = .ok v) cols row) :
    ∃ cm : List Nat, cols.map (strflds L val) = cm.map some ∧
      (GetRow L ent sql val).result
        = .ret (.reflectValue val (scanInto L val cm row (zeroRecord val)).1, none) := by
  obtain ⟨cm, hcm, hmap⟩ := colmapFrom_ok (strflds L val) cols 0 hkeys
  have hadds := addsOf_of_exported L val cols cm hmap hexp
  have hlen := (scan_matched_row L val cols cm row hmap hrow).1
  refine ⟨cm, hmap, ?_⟩
  rw [GetRow_of_colmap_ok_cons L ent sql val rows cols cm row rest hq hc hcm hrows, hadds]
  simp [hlen]

/-- No column resolves to a field that a later field shares its lookup name
with. -/
theorem shadowed_not_resolved (L : StdLib) (val : StructType) (q p : Nat)
    (fq fp : StructField) (hfq : val[q]? = some fq) (hfp : val[p]? = some fp) (hqp : q < p)
    (hname : fieldName L fq = fieldName L fp) (c : String) :
    strflds L val c ≠ some q := by
  intro h
  obtain ⟨f, hf, hfc, hlater⟩ := (strflds_eq_some_iff L val c q).mp h
  rw [hfq] at hf
  cases hf
  exact hlater p fp hqp hfp (by rw [← hname, hfc])

/-- C14 (amended). For every struct type in which the fields at positions
`q < p` have the same lookup name and no field after `p` has it: the catalog is
built all the same and maps the name to `p`; in every resolution table a
column of that name points to `p`; in every struct `GetRows` or `GetRow`
returns the field `q` holds its zero value; and for a successful query whose
columns are all matched and resolve to exported fields and whose values are
convertible, the call returns and the field `p` holds the converted value of
the last column of that name. -/
theorem duplicate_lookup_names (L : StdLib) (val : StructType) (q p : Nat)
    (fq fp : StructField) (hfq : val[q]? = some fq) (hfp : val[p]? = some fp) (hqp : q < p)
    (hname : fieldName L fq = fieldName L fp)
    (hlast : ∀ (r : Nat) (g : StructField), p < r → val[r]? = some g →
      fieldName L g ≠ fieldName L fp) :
    strflds L val (fieldName L fp) = some p ∧
    (∀ (cols : List String) (cm : List Nat) (i : Nat),
      colmap (strflds L val) cols = .ok cm → cols[i]? = some (fieldName L fp) →
      cm[i]? = some p) ∧
    (∀ (ent : Norm) (sql : String) (rows : Rows) (cols : List String),
      ent.DB.Query sql = .ok rows → rows.columns = .ok cols →
      (∀ list : List Record, (GetRows L ent sql val).result = .ret (.slice val list, none) →
        ∀ record ∈ list, record[q]? = some fq.Typ.zero) ∧
      (∀ record : Record,
        (GetRow L ent sql val).result = .ret (.reflectValue val record, none) →
        record[q]? = some fq.Typ.zero)) ∧
    (∀ (ent : Norm) (sql : String) (rows : Rows) (cols : List String),
      ent.DB.Query sql = .ok rows → rows.columns = .ok cols →
      (∀ c ∈ cols, strflds L val c ≠ none) →
      (∀ c ∈ cols, ∀ (n : Nat) (fld : StructField),
        strflds L val c = some n → val[n]? = some fld → fld.IsExported = true) →
      (∀ row ∈ rows.pending,
        List.Forall₂ (fun c sv => ∀ (n : Nat) (fld : StructField),
          strflds L val c = some n → val[n]? = some fld →
          ∃ v, L.convertAssign fld.Typ sv = .ok v) cols row) →
      (∃ list : List Record,
        (GetRows L ent sql val).result = .ret (.slice val list, none) ∧
        ∀ (n : Nat) (row : List Value), rows.pending[n]? = some row →
          ∃ record : Record, list[n]? = some record ∧
            ∀ (i : Nat) (sv v : Value), cols[i]? = some (fieldName L fp) →
              row[i]? = some sv → L.convertAssign fp.Typ sv = .ok v →
              (∀ j : Nat, i < j → cols[j]? ≠ some (fieldName L fp)) →
              record[p]? = some v) ∧
      (∀ (row : List Value) (rest : List (List Value)), rows.pending = row :: rest →
        ∃ (res : Iface) (record : Record),
          (GetRow L ent sql val).result = .ret (res, none) ∧ res.records = [record] ∧
          ∀ (i : Nat) (sv v : Value), cols[i]? = some (fieldName L fp) →
            row[i]? = some sv → L.convertAssign fp.Typ sv = .ok v →
            (∀ j : Nat, i < j → cols[j]? ≠ some (fieldName L fp)) →
            record[p]? = some v)) := by
  have hcat : strflds L val (fieldName L fp) = some p :=
    (strflds_eq_some_iff L val _ p).mpr ⟨fp, hfp, rfl, hlast⟩
  have hlastcol : ∀ (cols : List String) (i : Nat),
      (∀ j : Nat, i < j → cols[j]? ≠ some (fieldName L fp)) →
      ∀ (j : Nat) (c' : String), i < j → cols[j]? = some c' → strflds L val c' ≠ some p := by
    intro cols i hcols j c' hj hc' hres
    obtain ⟨f, hf, hfc, _⟩ := (strflds_eq_some_iff L val c' p).mp hres
    rw [hfp] at hf
    cases hf
    exact hcols j hj (by rw [hc', hfc])
  refine ⟨hcat, ?_, ?_, ?_⟩
  · intro cols cm i hcm hi
    have hmap := colmapFrom_ok_inv (strflds L val) cols 0 cm hcm
    obtain ⟨ind, hind, hres⟩ := colmap_getElem? _ cols cm hmap i _ hi
    rw [hcat] at hres
    cases hres
    exact hind
  · intro ent sql rows cols hq hc
    have hnot : ∀ cm : List Nat, colmap (strflds L val) cols = .ok cm → q ∉ cm :=
      fun cm hcm => not_mem_colmap L val cols cm hcm q
        (fun c _ => shadowed_not_resolved L val q p fq fp hfq hfp hqp hname c)
    constructor
    · intro list hres record hrec
      obtain ⟨cm, hcm, hloop⟩ := GetRows_ret_inv L ent sql val rows cols list hq hc hres
      rcases (rowsLoop_ret_inv L val cm _ _ _ list hloop).2 record hrec with h | h
      · simp at h
      · exact h.2 q fq hfq (hnot cm hcm)
    · intro record hres
      obtain ⟨cm, row, rest, hcm, _, hm⟩ :=
        GetRow_ret_inv L ent sql val rows cols record hq hc hres
      exact (materialize_ret L val cm _ record hm).2 q fq hfq (hnot cm hcm)
  · intro ent sql rows cols hq hc hkeys hexp hrows
    constructor
    · obtain ⟨cm, hmap, hres⟩ :=
        GetRows_matched_list L ent sql val rows cols hq hc hkeys (fun _ => hexp) hrows
      refine ⟨_, hres, ?_⟩
      intro n row hn
      refine ⟨(scanInto L val cm row (zeroRecord val)).1, by simp [hn], ?_⟩
      intro i sv v hi hsv hv hcols
      exact (scan_matched_row L val cols cm row hmap
        (hrows row (List.getElem?_mem hn))).2.2 i _ sv p fp v hi hsv hcat hfp hv
        (hlastcol cols i hcols)
    · intro row rest hp
      obtain ⟨cm, hmap, hres⟩ :=
        GetRow_matched_record L ent sql val rows cols row rest hq hc hkeys hp hexp
          (hrows row (by rw [hp]; exact List.mem_cons_self _ _))
      refine ⟨_, _, hres, rfl, ?_⟩
      intro i sv v hi hsv hv hcols
      exact (scan_matched_row L val cols cm row hmap
        (hrows row (by rw [hp]; exact List.mem_cons_self _ _))).2.2 i _ sv p fp v hi hsv
        hcat hfp hv (hlastcol cols i hcols)

/-- In `(Id int, ID int)` the column `id` with the value 7 is written into
`ID`, and `Id` keeps its zero value. -/
theorem duplicate_lookup_names_example :
    strflds exampleLib idPairType "id" = some 1 ∧
    (GetRows exampleLib (normOf idOnlyCursor) "select id from t" idPairType).result
      = .ret (.slice idPairType [[.int 0, .int 7]], none) ∧
    (GetRow exampleLib (normOf idOnlyCursor) "select id from t" idPairType).result
      = .ret (.reflectValue idPairType [.int 0, .int 7], none) := by
  decide

/-- C14, witness: in `(Id int, ID int)` the catalog maps `id` to position 1;
for the column `id` with the value 7 both fetches return, and the struct has
`ID = 7` and `Id = 0`. -/
theorem duplicate_lookup_names_witness :
    strflds exampleLib idPairType "id" = some 1 ∧
    (∃ list : List Record,
      (GetRows exampleLib (normOf idOnlyCursor) "select id from t" idPairType).result
        = .ret (.slice idPairType list, none) ∧
      (∀ record ∈ list, record[0]? = some (.int 0)) ∧
      ∃ record : Record, list[0]? = some record ∧ record[1]? = some (.int 7)) ∧
    (∃ (res : Iface) (record : Record),
      (GetRow exampleLib (normOf idOnlyCursor) "select id from t" idPairType).result
        = .ret (res, none) ∧ res.records = [record] ∧
      record[1]? = some (.int 7)) := by
  have hcat : strflds exampleLib idPairType "id" = some 1 := by decide
  have h := duplicate_lookup_names exampleLib idPairType 0 1 ⟨"Id", "", .int, []⟩
    ⟨"ID", "", .int, []⟩ rfl rfl (by decide) (by decide)
    (by
      intro r g hr hg
      have : idPairType[r]? = none := List.getElem?_eq_none (by simp [idPairType]; omega)
      rw [this] at hg
      cases hg)
  have hzero := h.2.2.1 (normOf idOnlyCursor) "select id from t" idOnlyCursor ["id"] rfl rfl
  have hlast : ∀ j : Nat, 0 < j → (["id"] : List String)[j]? ≠ some "id" := by
    intro j hj hc
    have : (["id"] : List String)[j]? = none := by
      apply List.getElem?_eq_none
      simp
      omega
    rw [this] at hc
    cases hc
  obtain ⟨⟨list, hres, hall⟩, hrow⟩ :=
    h.2.2.2 (normOf idOnlyCursor) "select id from t" idOnlyCursor ["id"] rfl rfl
      (by decide)
      (by
        intro c _ n fld _ hf
        have hmem := List.getElem?_mem hf
        simp [idPairType] at hmem
        rcases hmem with rfl | rfl <;> rfl)
      (by
        intro row hrow
        simp [idOnlyCursor, cursorOf] at hrow
        subst hrow
        refine .cons ?_ .nil
        intro n fld hn hf
        rw [hcat] at hn
        cases hn
        simp [idPairType] at hf
        subst hf
        exact ⟨_, rfl⟩)
  refine ⟨h.1, ⟨list, hres, hzero.1 list hres, ?_⟩, ?_⟩
  · obtain ⟨record, hrec, hval⟩ := hall 0 [.int 7] rfl
    exact ⟨record, hrec, hval 0 (.int 7) (.int 7) rfl rfl rfl hlast⟩
  · obtain ⟨res, record, hres', hrec, hval⟩ := hrow [.int 7] [] rfl
    exact ⟨res, record, hres', hrec, hval 0 (.int 7) (.int 7) rfl rfl rfl hlast⟩

/-- C14, counterexample: in `(Name string, name string)` both fields have the
lookup name `name` and the catalog maps it to the last one, which is not
exported; with the column `name` and one row neither fetch returns, so the
column is not written into the last such field. -/
theorem duplicate_names_unexported_counterexample :
    namePairType[0]? = some ⟨"Name", "", .string, []⟩ ∧
    namePairType[1]? = some ⟨"name", "main", .string, []⟩ ∧
    fieldName exampleLib ⟨"Name", "", .string, []⟩ = "name" ∧
    fieldName exampleLib ⟨"name", "main", .string, []⟩ = "name" ∧
    strflds exampleLib namePairType "name" = some 1 ∧
    (GetRows exampleLib (normOf namePairCursor) "select name from t" namePairType).result
      = .panic "reflect.Value.Interface: cannot return value obtained from unexported field or method" ∧
    (GetRow exampleLib (normOf namePairCursor) "select name from t" namePairType).result
      = .panic "reflect.Value.Interface: cannot return value obtained from unexported field or method" ∧
    ¬ (∃ (res : Iface) (record : Record),
        (GetRows exampleLib (normOf namePairCursor) "select name from t"
          namePairType).result = .ret (res, none) ∧
        record ∈ res.records ∧ record[1]? = some (.str "a") ∧
        record[0]? = some (.str "")) ∧
    ¬ (∃ (res : Iface) (record : Record),
        (GetRow exampleLib (normOf namePairCursor) "select name from t"
          namePairType).result = .ret (res, none) ∧
        record ∈ res.records ∧ record[1]? = some (.str "a") ∧
        record[0]? = some (.str "")) := by
  have h1 : (GetRows exampleLib (normOf namePairCursor) "select name from t"
      namePairType).result
      = .panic "reflect.Value.Interface: cannot return value obtained from unexported field or method" := by
    decide
  have h2 : (GetRow exampleLib (normOf namePairCursor) "select name from t"
      namePairType).result
      = .panic "reflect.Value.Interface: cannot return value obtained from unexported field or method" := by
    decide
  refine ⟨rfl, rfl, by decide, by decide, by decide, h1, h2, ?_, ?_⟩
  · rintro ⟨res, record, h, _⟩
    rw [h1] at h
    cases h
  · rintro ⟨res, record, h, _⟩
    rw [h2] at h
    cases h

/-! ## The resolution table -/

/-- C15. For every catalog and every column list whose names are all keys of
it, the resolution table exists, has one entry per column, and its `i`-th
entry is the catalog's position for the `i`-th column name. The table is a
function of the catalog and the column list alone: the rows are not among the
arguments of `colmap`. -/
theorem colmap_order_preserving (m : StrMap) (cols : List String)
    (hkeys : ∀ c ∈ cols, m c ≠ none) :
    ∃ cm : List Nat, colmap m cols = .ok cm ∧ cm.length = cols.length ∧
      ∀ (i : Nat) (c : String), cols[i]? = some c → cm[i]? = m c := by
  obtain ⟨cm, hcm, hmap⟩ := colmapFrom_ok m cols 0 hkeys
  refine ⟨cm, hcm, colmap_length m cols cm hmap, ?_⟩
  intro i c hc
  obtain ⟨ind, hind, hmc⟩ := colmap_getElem? m cols cm hmap i c hc
  rw [hind, hmc]

/-- C15, witness: for `(Id int, Name string)` and the columns `name`, `id`,
`name` the table is `[1, 0, 1]`. -/
theorem colmap_order_preserving_witness :
    ∃ cm : List Nat,
      colmap (strflds exampleLib personType) ["name", "id", "name"] = .ok cm ∧
      cm.length = 3 ∧ cm = [1, 0, 1] := by
  obtain ⟨cm, hcm, hlen, _⟩ :=
    colmap_order_preserving (strflds exampleLib personType) ["name", "id", "name"]
      (by decide)
  refine ⟨cm, hcm, hlen, ?_⟩
  have heval : colmap (strflds exampleLib personType) ["name", "id", "name"]
      = .ok [1, 0, 1] := by decide
  rw [heval] at hcm
  injection hcm with hcm
  exact hcm.symm

/-! ## Fields without a column -/

/-- C16. For every struct type and every successful query, in every struct
that `GetRows` or `GetRow` returns, each field that no column of the result
resolves to holds the zero value of its type. The template value enters the
operations through its type only, and each struct starts from a fresh zero
struct, so neither the template's contents nor the other rows matter. -/
theorem unmapped_fields_zero (L : StdLib) (ent : Norm) (sql : String) (val : StructType)
    (rows : Rows) (cols : List String)
    (hq : ent.DB.Query sql = .ok rows) (hc : rows.columns = .ok cols) :
    (∀ list : List Record, (GetRows L ent sql val).result = .ret (.slice val list, none) →
      list.length = rows.pending.length ∧
      ∀ record ∈ list, record.length = val.length ∧
        ∀ (p : Nat) (fld : StructField), val[p]? = some fld →
          (∀ c ∈ cols, strflds L val c ≠ some p) → record[p]? = some fld.Typ.zero) ∧
    (∀ record : Record,
      (GetRow L ent sql val).result = .ret (.reflectValue val record, none) →
      record.length = val.length ∧
      ∀ (p : Nat) (fld : StructField), val[p]? = some fld →
        (∀ c ∈ cols, strflds L val c ≠ some p) → record[p]? = some fld.Typ.zero) := by
  constructor
  · intro list hres
    obtain ⟨cm, hcm, hloop⟩ := GetRows_ret_inv L ent sql val rows cols list hq hc hres
    obtain ⟨hlen, hall⟩ := rowsLoop_ret_inv L val cm _ _ _ list hloop
    refine ⟨by simpa using hlen, ?_⟩
    intro record hrec
    rcases hall record hrec with h | h
    · simp at h
    · exact ⟨h.1, fun p fld hfld hp =>
        h.2 p fld hfld (not_mem_colmap L val cols cm hcm p hp)⟩
  · intro record hres
    obtain ⟨cm, row, rest, hcm, _, hm⟩ :=
      GetRow_ret_inv L ent sql val rows cols record hq hc hres
    have h := materialize_ret L val cm _ record hm
    exact ⟨h.1, fun p fld hfld hp =>
      h.2 p fld hfld (not_mem_colmap L val cols cm hcm p hp)⟩

/-- With the single column `name`, both structs of `GetRows` and the struct of
`GetRow` have `Id = 0`. -/
theorem unmapped_fields_zero_example :
    (GetRows exampleLib (normOf nameOnlyCursor) "select name from person" personType).result
      = .ret (.slice personType [[.int 0, .str "a"], [.int 0, .str "b"]], none) ∧
    (GetRow exampleLib (normOf nameOnlyCursor) "select name from person" personType).result
      = .ret (.reflectValue personType [.int 0, .str "a"], none) := by
  decide

/-- C16, witness: `(Id int, Name string)` with the single column `name`: in the
structs returned the field `Id`, to which no column resolves, is 0. -/
theorem unmapped_fields_zero_witness :
    (∃ list : List Record,
      (GetRows exampleLib (normOf nameOnlyCursor) "select name from person"
        personType).result = .ret (.slice personType list, none) ∧
      list.length = 2 ∧ ∀ record ∈ list, record[0]? = some (Value.int 0)) ∧
    (∃ record : Record,
      (GetRow exampleLib (normOf nameOnlyCursor) "select name from person"
        personType).result = .ret (.reflectValue personType record, none) ∧
      record[0]? = some (Value.int 0)) :=
  have h := unmapped_fields_zero exampleLib (normOf nameOnlyCursor)
    "select name from person" personType nameOnlyCursor ["name"] rfl rfl
  have hId : ∀ c ∈ ["name"], strflds exampleLib personType c ≠ some 0 := by decide
  ⟨⟨[[.int 0, .str "a"], [.int 0, .str "b"]], by decide,
      (h.1 [[.int 0, .str "a"], [.int 0, .str "b"]] (by decide)).1,
      fun record hrec =>
        ((h.1 [[.int 0, .str "a"], [.int 0, .str "b"]] (by decide)).2 record hrec).2 0
          ⟨"Id", "", .int, []⟩ rfl hId⟩,
    ⟨[.int 0, .str "a"], by decide,
      (h.2 [.int 0, .str "a"] (by decide)).2 0 ⟨"Id", "", .int, []⟩ rfl hId⟩⟩

/-! ## Field positions are in range -/

/-- C17. For every struct type with `n` fields: every position of the catalog,
and so every entry of every resolution table, is below `n`; each entry
addresses a field; and neither `GetRows` nor `GetRow` ever raises the panic of
a field access out of range. -/
theorem field_index_in_range (L : StdLib) (val : StructType) :
    (∀ (c : String) (p : Nat), strflds L val c = some p → p < val.length) ∧
    (∀ (cols : List String) (cm : List Nat), colmap (strflds L val) cols = .ok cm →
      ∀ p ∈ cm, p < val.length ∧ ∃ fld : StructField, val[p]? = some fld) ∧
    (∀ (ent : Norm) (sql : String),
      (GetRows L ent sql val).result ≠ .panic "reflect: Field index out of range" ∧
      (GetRow L ent sql val).result ≠ .panic "reflect: Field index out of range") := by
  refine ⟨fun c p h => strflds_lt L val c p h, ?_, ?_⟩
  · intro cols cm hcm p hp
    have hlt := colmap_lt L val cols cm hcm p hp
    exact ⟨hlt, val[p], List.getElem?_eq_getElem hlt⟩
  · intro ent sql
    constructor
    · intro h
      obtain ⟨cols, cm, hcm, hadds⟩ := GetRows_panic_inv L ent sql val _ h
      have := addsOf_panic_msg val cm _ (colmap_lt L val cols cm hcm) hadds
      exact absurd this (by decide)
    · intro h
      obtain ⟨cols, cm, hcm, hadds⟩ := GetRow_panic_inv L ent sql val _ h
      have := addsOf_panic_msg val cm _ (colmap_lt L val cols cm hcm) hadds
      exact absurd this (by decide)

/-- C17, witness: for `(Id int, Name string)` the entries of the table of the
columns `name`, `id` are below 2. -/
theorem field_index_in_range_witness :
    (∀ p ∈ [1, 0], p < personType.length) ∧
    (GetRows exampleLib (normOf personCursor) "select id, name from person" personType).result
      ≠ .panic "reflect: Field index out of range" :=
  have h := field_index_in_range exampleLib personType
  ⟨fun p hp => (h.2.1 ["name", "id"] [1, 0] (by decide) p hp).1,
    (h.2.2 (normOf personCursor) "select id, name from person").1⟩

/-! ## Errors of the text operations -/

/-- C18. For every struct type and every query, `GetRowsJson` returns an error
exactly when `GetRows` does, and `GetRowJson` exactly when `GetRow` does, the
error being the same; and when the fetch returns a nil error the text
operation returns the encoder's text with a nil error, whatever error the
encoder reported. -/
theorem text_error_iff_fetch_error (L : StdLib) (ent : Norm) (sql : String)
    (val : StructType) :
    (∀ e : Error, (∃ t : String, (GetRowsJson L ent sql val).result = .ret (t, some e)) ↔
      (∃ v : Iface, (GetRows L ent sql val).result = .ret (v, some e))) ∧
    (∀ e : Error, (∃ t : String, (GetRowJson L ent sql val).result = .ret (t, some e)) ↔
      (∃ v : Iface, (GetRow L ent sql val).result = .ret (v, some e))) ∧
    (∀ v : Iface, (GetRows L ent sql val).result = .ret (v, none) →
      (GetRowsJson L ent sql val).result = .ret ((jsonMarshal L v).1, none)) ∧
    (∀ v : Iface, (GetRow L ent sql val).result = .ret (v, none) →
      (GetRowJson L ent sql val).result = .ret ((jsonMarshal L v).1, none)) := by
  refine ⟨?_, ?_, ?_, ?_⟩
  · intro e
    rw [GetRowsJson_result]
    constructor
    · rintro ⟨t, ht⟩
      rcases hr : (GetRows L ent sql val).result with ⟨v, err⟩ | msg
      · rw [hr] at ht
        cases err with
        | none =>
          injection ht with ht
          injection ht with _ ht
          cases ht
        | some e' =>
          injection ht with ht
          injection ht with _ ht
          injection ht with ht
          subst ht
          exact ⟨v, rfl⟩
      · rw [hr] at ht
        cases ht
    · rintro ⟨v, hv⟩
      rw [hv]
      exact ⟨"[]", rfl⟩
  · intro e
    rw [GetRowJson_result]
    constructor
    · rintro ⟨t, ht⟩
      rcases hr : (GetRow L ent sql val).result with ⟨v, err⟩ | msg
      · rw [hr] at ht
        cases err with
        | none =>
          injection ht with ht
          injection ht with _ ht
          cases ht
        | some e' =>
          injection ht with ht
          injection ht with _ ht
          injection ht with ht
          subst ht
          exact ⟨v, rfl⟩
      · rw [hr] at ht
        cases ht
    · rintro ⟨v, hv⟩
      rw [hv]
      exact ⟨"", rfl⟩
  · intro v hv
    rw [GetRowsJson_result, hv]
  · intro v hv
    rw [GetRowJson_result, hv]

/-- C18, witness: with an encoder that reports an error, the fetch of the two
rows succeeds and `GetRowsJson` returns the empty text with a nil error; and
the error of the unmatched column `nickname` is returned by `GetRowsJson`. -/
theorem text_error_iff_fetch_error_witness :
    (jsonMarshal brokenEncoderLib
      (.slice personType [[.int 1, .str "a"], [.int 2, .str "b"]])).2
      = some "json: unsupported value" ∧
    (GetRowsJson brokenEncoderLib (normOf personCursor) "select id, name from person"
      personType).result = .ret ("", none) ∧
    (∃ t : String,
      (GetRowsJson exampleLib (normOf nicknameCursor) "select id, nickname from person"
        personType).result = .ret (t, some "No match for column 1: nickname")) :=
  ⟨by decide,
    (text_error_iff_fetch_error brokenEncoderLib (normOf personCursor)
      "select id, name from person" personType).2.2.1
      (.slice personType [[.int 1, .str "a"], [.int 2, .str "b"]]) (by decide),
    ((text_error_iff_fetch_error exampleLib (normOf nicknameCursor)
      "select id, nickname from person" personType).1
      "No match for column 1: nickname").mpr ⟨.nil, by decide⟩⟩

end Gonorm
